import Mathlib

set_option maxRecDepth 40000

/- Shallow embedding of the unifyiq repository (FastAPI services in
   src/mcp, src/insights inside src/mcp/insights.py, and src/agent).
   Pure functions are translated directly; HTTP endpoints become Lean
   functions taking their inputs (the fetched account/issue collections
   replace the outbound HTTP fetch helpers, which are external
   collaborators) and returning `Except HErr` to model `raise
   HTTPException`. -/

/-- Model of a FastAPI `HTTPException` (status code plus detail). -/
structure HErr where
  status : Nat
  detail : String
  deriving DecidableEq, Repr

/-- The `__str__` of a starlette `HTTPException`: "{status}: {detail}". -/
def strOfHErr (e : HErr) : String :=
  toString e.status ++ ": " ++ e.detail

/-- A Python value as it appears in the dynamically typed rows handled by
    the services: `None`, `int`, `str`, and (for the `in` filter operator,
    whose plan value may be a collection) a list of strings.  Nested
    containers inside a row (the `LinkedIssues` column of the raw unified
    payload) are opaque to every plan step the claims exercise and are
    not represented in the row model. -/
inductive Value where
  | vNull : Value
  | vInt (n : Int) : Value
  | vStr (s : String) : Value
  | vStrList (xs : List String) : Value
  deriving DecidableEq, Repr

open Value

/-- Python `==` on the modelled values (structural on these scalars). -/
def vEq (a b : Value) : Bool := a = b

/-- Python truthiness for the modelled values. -/
def truthy : Value → Bool
  | vNull => false
  | vInt n => n != 0
  | vStr s => s ≠ ""
  | vStrList xs => !xs.isEmpty

/-- Python `str(...)` for the scalar values; list values get a coarse
    rendering (never consulted by the claims: templates and lookups only
    ever stringify ints and strings). -/
def pyToString : Value → String
  | vNull => "None"
  | vInt n => toString n
  | vStr s => s
  | vStrList _ => "[...]"

/-- Character is a decimal digit. -/
def isDigitChar (c : Char) : Bool := '0' ≤ c && c ≤ '9'

/-- Python `str.strip` / `\s` whitespace set (ASCII portion; the data the
    services handle is ASCII). -/
def isSpaceChar (c : Char) : Bool :=
  c = ' ' || c = '\t' || c = '\n' || c = '\x0d' || c = '\x0b' || c = '\x0c'

/-- Regex `\w` / word character: letter, digit or underscore (ASCII). -/
def isWordChar (c : Char) : Bool :=
  c.isAlpha || isDigitChar c || c = '_'

/-- ASCII lower-casing of a character (Python `str.lower` on the ASCII
    data handled here). -/
def pyLowerChar (c : Char) : Char := c.toLower

/-- Python `str.lower` (ASCII). -/
def pyLower (s : String) : String := String.mk (s.data.map pyLowerChar)

/-- Python `str.strip()` on a character list. -/
def stripChars (l : List Char) : List Char :=
  ((l.dropWhile isSpaceChar).reverse.dropWhile isSpaceChar).reverse

/-- Python `str.strip()`. -/
def pyStrip (s : String) : String := String.mk (stripChars s.data)

/-- Digits of a natural number base 10 (most significant first). -/
def natDigits (n : Nat) : List Char :=
  (toString n).data

/-- Left-pad a character list with `'0'` to width `w` (Python `zfill`). -/
def zfill (w : Nat) (l : List Char) : List Char :=
  List.replicate (w - l.length) '0' ++ l

/-- Decimal value of a digit run. -/
def digitsToNat : List Char → Nat
  | [] => 0
  | c :: cs => digitsToNatAux (c :: cs) 0
where
  digitsToNatAux : List Char → Nat → Nat
    | [], acc => acc
    | c :: cs, acc => digitsToNatAux cs (acc * 10 + (c.toNat - '0'.toNat))

/-- Does `needle` occur as a substring of `hay` (both as char lists)?
    Models `needle in hay` / an unanchored `re.search` for a literal. -/
def subOccurs (needle : List Char) : List Char → Bool
  | [] => needle.isEmpty
  | c :: cs => needle.isPrefixOf (c :: cs) || subOccurs needle cs

/-- Case-insensitive substring containment on strings (Python
    `needle.lower() in hay.lower()`). -/
def containsCI (hay needle : String) : Bool :=
  subOccurs (pyLower needle).data (pyLower hay).data

/-- Ordered-dict upsert: replace in place if the key exists, else append.
    Models assignment `d[k] = v` on a Python (insertion-ordered) dict. -/
def dictSet (d : List (String × Value)) (k : String) (v : Value) :
    List (String × Value) :=
  match d with
  | [] => [(k, v)]
  | (k', v') :: rest =>
      if k' = k then (k, v) :: rest else (k', v') :: dictSet rest k v

/-- A dynamically-typed row (Python dict with string keys). -/
abbrev Row := List (String × Value)

/-- `row.get(k)`: the stored value, or `None` when the key is absent. -/
def rowGet (r : Row) (k : String) : Value :=
  (r.lookup k).getD vNull

/-- `row.get(k, default)` with an explicit default (distinguishes a
    missing key from a stored `None`). -/
def rowGetD (r : Row) (k : String) (d : Value) : Value :=
  (r.lookup k).getD d

/-- Merge of two parameter dicts, right operand winning on conflicts:
    Python `{**a, **b}`. -/
def dictMerge (a b : Row) : Row :=
  b.foldl (fun acc kv => dictSet acc kv.1 kv.2) a

/- ---------------------------------------------------------------------
   Stable sorting.  Python `list.sort(key=..., reverse=...)` is a stable
   sort; a stable sort is determined up to extensional equality by the
   comparator (sortedness + permutation + stability), so it is modelled
   by Mathlib's stable `List.insertionSort`.  Sort keys are encoded into
   `List Int` with its lexicographic linear order, mirroring Python's
   tuple/element comparisons on the (homogeneous) keys the code builds.
   --------------------------------------------------------------------- -/

/-- Lexicographic `≤` on integer lists (how Python compares the tuple /
    scalar sort keys once encoded; a strict prefix is smaller). -/
def intListLe : List Int → List Int → Bool
  | [], _ => true
  | _ :: _, [] => false
  | a :: as, b :: bs =>
      if a < b then true else if b < a then false else intListLe as bs

/-- Stable ascending sort by an integer-list key (Python
    `sorted(l, key=key)` for keys that compare like their encodings). -/
def sortByKey (key : α → List Int) (l : List α) : List α :=
  List.insertionSort (fun a b => intListLe (key a) (key b) = true) l

/-- Stable descending sort by an integer-list key (Python
    `sorted(l, key=key, reverse=True)`: reversed comparisons, equal
    elements keep their original order). -/
def sortByKeyDesc (key : α → List Int) (l : List α) : List α :=
  List.insertionSort (fun a b => intListLe (key b) (key a) = true) l

/- ---------------------------------------------------------------------
   src/mcp/normalization.py
   --------------------------------------------------------------------- -/

/-- `PRIORITY_MAP` from normalization.py. -/
def PRIORITY_MAP : List (String × String) :=
  [("critical", "P1"), ("blocker", "P1"), ("high", "P1"),
   ("medium", "P2"), ("low", "P3")]

/-- `STATUS_MAP` from normalization.py. -/
def STATUS_MAP : List (String × String) :=
  [("open", "Open"), ("in progress", "In Progress"), ("backlog", "Open"),
   ("todo", "Open"), ("done", "Closed"), ("closed", "Closed"),
   ("resolved", "Closed")]

/-- ASCII upper-casing (Python `str.upper` on the ASCII data here). -/
def pyUpper (s : String) : String := String.mk (s.data.map Char.toUpper)

/-- Gregorian leap year. -/
def isLeapYear (y : Nat) : Bool :=
  y % 4 = 0 && (y % 100 ≠ 0 || y % 400 = 0)

/-- Days in a month of the proleptic Gregorian calendar. -/
def daysInMonth (y m : Nat) : Nat :=
  if m = 2 then (if isLeapYear y then 29 else 28)
  else if m = 4 || m = 6 || m = 9 || m = 11 then 30
  else 31

/-- A `datetime.date`-valid (year, month, day) triple; `strptime` raises
    (and the caller catches) on anything else, including year 0
    (`datetime.MINYEAR` is 1). -/
def validYMD (y m d : Nat) : Bool :=
  1 ≤ y && y ≤ 9999 && 1 ≤ m && m ≤ 12 && 1 ≤ d && d ≤ daysInMonth y m

/-- Field order of a date format string (`%Y-%m-%d` is `ymd`, etc.). -/
inductive DOrder where
  | ymd : DOrder
  | dmy : DOrder
  | mdy : DOrder

/-- Split a char list into three maximal digit runs separated by `sep`
    with nothing left over — the shape every format in `fmts` matches.
    `strptime`'s field patterns are digit-only, so greedy runs are exact. -/
def threeRuns (sep : Char) (l : List Char) :
    Option (List Char × List Char × List Char) :=
  let r1 := l.takeWhile isDigitChar
  let t1 := l.dropWhile isDigitChar
  match t1 with
  | c :: rest1 =>
      if c = sep then
        let r2 := rest1.takeWhile isDigitChar
        let t2 := rest1.dropWhile isDigitChar
        match t2 with
        | c2 :: rest2 =>
            if c2 = sep then
              let r3 := rest2.takeWhile isDigitChar
              let t3 := rest2.dropWhile isDigitChar
              if t3.isEmpty then some (r1, r2, r3) else none
            else none
        | [] => none
      else none
  | [] => none

/-- `strptime` `%Y`: exactly four digits. -/
def yearRunOk (r : List Char) : Bool := r.length = 4

/-- `strptime` `%m`/`%d`: one or two digits (the alternation patterns
    `1[0-2]|0[1-9]|[1-9]` and `3[01]|[12]\d|0[1-9]|[1-9]` admit exactly
    the 1-2 digit strings whose value is in range, checked below). -/
def mdRunOk (r : List Char) : Bool := 1 ≤ r.length && r.length ≤ 2

/-- One `datetime.strptime(s, fmt).date()` attempt for a format made of
    `%Y`/`%m`/`%d` in order `ord` with separator `sep`; `none` models the
    exception swallowed by `to_iso_date`. -/
def tryFmt (ord : DOrder) (sep : Char) (l : List Char) :
    Option (Nat × Nat × Nat) :=
  match threeRuns sep l with
  | none => none
  | some (r1, r2, r3) =>
      let pick : Option (Nat × Nat × Nat) :=
        match ord with
        | .ymd =>
            if yearRunOk r1 && mdRunOk r2 && mdRunOk r3 then
              some (digitsToNat r1, digitsToNat r2, digitsToNat r3)
            else none
        | .dmy =>
            if mdRunOk r1 && mdRunOk r2 && yearRunOk r3 then
              some (digitsToNat r3, digitsToNat r2, digitsToNat r1)
            else none
        | .mdy =>
            if mdRunOk r1 && mdRunOk r2 && yearRunOk r3 then
              some (digitsToNat r3, digitsToNat r1, digitsToNat r2)
            else none
      match pick with
      | some (y, m, d) => if validYMD y m d then some (y, m, d) else none
      | none => none

/-- The ordered format list of `to_iso_date`:
    `["%Y-%m-%d","%d-%m-%Y","%d/%m/%Y","%Y/%m/%d","%m/%d/%Y","%m-%d-%Y"]`. -/
def fmts : List (DOrder × Char) :=
  [(.ymd, '-'), (.dmy, '-'), (.dmy, '/'), (.ymd, '/'), (.mdy, '/'), (.mdy, '-')]

/-- `date.isoformat()`: zero-padded `YYYY-MM-DD`. -/
def isoFormat (y m d : Nat) : String :=
  String.mk (zfill 4 (natDigits y) ++ '-' :: zfill 2 (natDigits m) ++
    '-' :: zfill 2 (natDigits d))

/-- Python `s.split(sep)` on char lists. -/
def splitOnChar (sep : Char) : List Char → List (List Char)
  | [] => [[]]
  | c :: cs =>
      if c = sep then [] :: splitOnChar sep cs
      else
        match splitOnChar sep cs with
        | [] => [[c]]
        | p :: ps => (c :: p) :: ps

/-- `to_iso_date` from normalization.py: try the format list in order
    (first match wins), then the year-first zero-padding heuristic, else
    `None`.  Parsing never raises. -/
def to_iso_date (value : Value) : Option String :=
  if !truthy value || pyStrip (pyToString value) = "" then none
  else
    let s := (pyStrip (pyToString value)).data
    match fmts.findSome? (fun fc => tryFmt fc.1 fc.2 s) with
    | some (y, m, d) => some (isoFormat y m d)
    | none =>
        let parts := splitOnChar '-' (s.map (fun c => if c = '/' then '-' else c))
        match parts with
        | [p0, p1, p2] =>
            if p0.length = 4 then
              some (String.mk (p0 ++ '-' :: zfill 2 p1 ++ '-' :: zfill 2 p2))
            else none
        | _ => none

/-- `norm_priority` from normalization.py: case-insensitive lookup in
    `PRIORITY_MAP`, default `"P3"` (also for absent/falsy input). -/
def norm_priority (p : Value) : String :=
  if !truthy p then "P3"
  else (PRIORITY_MAP.lookup (pyStrip (pyLower (pyToString p)))).getD "P3"

/-- `norm_status` from normalization.py: case-insensitive lookup in
    `STATUS_MAP`, default `"Open"` (also for absent/falsy input). -/
def norm_status (s : Value) : String :=
  if !truthy s then "Open"
  else (STATUS_MAP.lookup (pyStrip (pyLower (pyToString s)))).getD "Open"

/- ---------------------------------------------------------------------
   Data model: normalized records (src/mcp/routes.py `normalize_*`) and
   the unified account (src/mcp/schemas.py).
   --------------------------------------------------------------------- -/

/-- A normalized Salesforce account dict (output of `normalize_salesforce`;
    field types follow the upstream data: IDs and dimensions are strings
    or `None`, `ARR` is an integer or `None` per `UnifiedAccount` in
    schemas.py). -/
structure SFRecord where
  AccountID : Option String
  AccountName : String
  Owner : Value
  Region : Option String
  Industry : Option String
  ARR : Option Int
  RenewalDate : Option String
  Stage : Option String
  CustomerSince : Option String

/-- A normalized Jira issue dict (output of `normalize_jira`).  `EpicLink`
    is a string or `None` in the source data (non-string epic links would
    make `sorted` in mapping.py raise and are not modelled). -/
structure NormalizedIssue where
  IssueID : Value
  Summary : String
  Status : String
  Priority : String
  Assignee : Value
  Reporter : Value
  CreatedDate : Option String
  ResolvedDate : Option String
  StoryPoints : Value
  EpicLink : Option String
  IsOpen : Bool

/-- The `LinkedIssues` projection built by `unify_accounts`. -/
structure LinkedIssue where
  IssueID : Value
  Summary : String
  Priority : String
  Status : String
  CreatedDate : Option String
  ResolvedDate : Option String
  EpicLink : Option String

/-- A unified account as produced by `unify_accounts` (schema
    `UnifiedAccount` in schemas.py). -/
structure UnifiedAccount where
  AccountID : String
  AccountName : String
  ARR : Option Int
  RenewalDate : Option String
  Stage : Option String
  Region : Option String
  Industry : Option String
  OpenIssues : Nat
  OpenP1Issues : Nat
  OpenP2Issues : Nat
  OpenP3Issues : Nat
  LastIssueDate : Option String
  LinkedIssues : List LinkedIssue

/-- Truthiness of an optional string (Python: `None` and `""` are falsy). -/
def optTruthy : Option String → Bool
  | none => false
  | some s => s ≠ ""

/-- `r.get(k)` read as an optional string (`None` both for an absent key
    and a stored `None`). -/
def asOptStr : Value → Option String
  | vStr s => some s
  | _ => none

/-- `r.get(k)` read as an optional integer. -/
def asOptInt : Value → Option Int
  | vInt n => some n
  | _ => none

/-- `str(x or "")` -- falsy values become the empty string. -/
def orEmptyStr (v : Value) : String :=
  if truthy v then pyToString v else ""

/-- `normalize_salesforce` from src/mcp/routes.py. -/
def normalize_salesforce (records : List Row) : List SFRecord :=
  records.map (fun r =>
    { AccountID := asOptStr (rowGet r "AccountID")
      AccountName := pyStrip (orEmptyStr (rowGet r "AccountName"))
      Owner := rowGet r "Owner"
      Region := asOptStr (rowGet r "Region")
      Industry := asOptStr (rowGet r "Industry")
      ARR := asOptInt (rowGet r "ARR")
      RenewalDate := to_iso_date (rowGet r "RenewalDate")
      Stage := asOptStr (rowGet r "Stage")
      CustomerSince := to_iso_date (rowGet r "CustomerSince") })

/-- `normalize_jira` from src/mcp/routes.py. -/
def normalize_jira (records : List Row) : List NormalizedIssue :=
  records.map (fun r =>
    let status := norm_status (rowGet r "Status")
    { IssueID := rowGet r "IssueID"
      Summary := pyStrip (orEmptyStr (rowGet r "Summary"))
      Status := status
      Priority := norm_priority (rowGet r "Priority")
      Assignee := rowGet r "Assignee"
      Reporter := rowGet r "Reporter"
      CreatedDate := to_iso_date (rowGet r "CreatedDate")
      ResolvedDate := to_iso_date (rowGet r "ResolvedDate")
      StoryPoints := rowGet r "StoryPoints"
      EpicLink := asOptStr (rowGet r "EpicLink")
      IsOpen := status ≠ "Closed" })

/- ---------------------------------------------------------------------
   src/mcp/mapping.py
   --------------------------------------------------------------------- -/

/-- Python string `≤` (code-point lexicographic, the order `sorted` uses). -/
def strLe (a b : String) : Prop := a.data ≤ b.data

instance : DecidableRel strLe := fun a b => by
  unfold strLe; infer_instance

instance : IsTotal String strLe := ⟨fun a b => le_total a.data b.data⟩

instance : IsTrans String strLe := ⟨fun _ _ _ h h' => le_trans h h'⟩

instance : IsAntisymm String strLe :=
  ⟨fun a b h h' => by
    cases a; cases b
    exact congrArg String.mk (le_antisymm h h')⟩

/-- `sorted(set(l))`: the distinct elements in ascending order. -/
def strSortedDistinct (l : List String) : List String :=
  List.insertionSort strLe l.dedup

/-- The truthy members of a list of optional strings (a Python set/list
    comprehension with an `if r.get(k)` guard). -/
def truthyStrs (l : List (Option String)) : List String :=
  l.filterMap (fun o => match o with
    | some s => if s = "" then none else some s
    | none => none)

/-- `build_epic_to_account_map` from src/mcp/mapping.py: sorted distinct
    truthy AccountIDs and EpicLinks; empty if either is empty; otherwise
    epic `i` maps to account `i mod N`.  The dict is an insertion-ordered
    association list keyed by the (distinct) epics. -/
def build_epic_to_account_map (sf : List SFRecord) (ji : List NormalizedIssue) :
    List (String × String) :=
  let acc_ids := strSortedDistinct (truthyStrs (sf.map (·.AccountID)))
  let epics := strSortedDistinct (truthyStrs (ji.map (·.EpicLink)))
  if acc_ids.isEmpty || epics.isEmpty then []
  else epics.enum.map (fun p => (p.2, acc_ids.getD (p.1 % acc_ids.length) ""))

/- ---------------------------------------------------------------------
   src/mcp/routes.py: unify_accounts and the single-account lookup.
   --------------------------------------------------------------------- -/

/-- Ordered-dict upsert for an arbitrary value type (Python dict build
    with string keys: duplicate keys keep the first position, the last
    value wins). -/
def assocSet (d : List (String × α)) (k : String) (v : α) :
    List (String × α) :=
  match d with
  | [] => [(k, v)]
  | (k', v') :: rest =>
      if k' = k then (k, v) :: rest else (k', v') :: assocSet rest k v

/-- `sf_by_id = {r["AccountID"]: r for r in sf if r.get("AccountID")}`:
    insertion-ordered, last record wins per AccountID. -/
def sfById (sf : List SFRecord) : List (String × SFRecord) :=
  sf.foldl
    (fun m r =>
      match r.AccountID with
      | some k => if k = "" then m else assocSet m k r
      | none => m)
    []

/-- The account an issue is linked to, if any: `epic_map.get(EpicLink)`,
    kept only when truthy and a key of `issues_by_acc` (= the keys of
    `sf_by_id`).  Issues without one are orphans. -/
def issueAccount (epicMap : List (String × String)) (accKeys : List String)
    (i : NormalizedIssue) : Option String :=
  match i.EpicLink.bind (fun e => epicMap.lookup e) with
  | some a => if a ≠ "" && accKeys.contains a then some a else none
  | none => none

/-- One iteration of the open/priority counting loop of
    `unify_accounts`: an open issue increments `open_issues` and the
    bucket its priority falls into, if any. -/
def countOpenStep (acc : Nat × Nat × Nat × Nat) (x : NormalizedIssue) :
    Nat × Nat × Nat × Nat :=
  let (oi, p1, p2, p3) := acc
  if x.IsOpen then
    if x.Priority = "P1" then (oi + 1, p1 + 1, p2, p3)
    else if x.Priority = "P2" then (oi + 1, p1, p2 + 1, p3)
    else if x.Priority = "P3" then (oi + 1, p1, p2, p3 + 1)
    else (oi + 1, p1, p2, p3)
  else acc

/-- The per-account open/priority counting loop of `unify_accounts`. -/
def countOpen (issues : List NormalizedIssue) : Nat × Nat × Nat × Nat :=
  issues.foldl countOpenStep (0, 0, 0, 0)

/-- `max([...CreatedDate...], default=None)` over ISO strings (Python
    string `max`, code-point lexicographic; first maximum kept). -/
def maxCreated (issues : List NormalizedIssue) : Option String :=
  (issues.filterMap (·.CreatedDate)).foldl
    (fun acc s =>
      match acc with
      | none => some s
      | some t => if t.data < s.data then some s else some t)
    none

/-- The `LinkedIssues` projection of `unify_accounts`. -/
def linkedProjection (issues : List NormalizedIssue) : List LinkedIssue :=
  issues.map (fun i =>
    { IssueID := i.IssueID
      Summary := i.Summary
      Priority := i.Priority
      Status := i.Status
      CreatedDate := i.CreatedDate
      ResolvedDate := i.ResolvedDate
      EpicLink := i.EpicLink })

/-- `unify_accounts` from src/mcp/routes.py: build the epic map, bucket
    the issues per account (orphans aside), and emit one unified account
    per `sf_by_id` entry with the open-issue rollups. -/
def unify_accounts (sf : List SFRecord) (ji : List NormalizedIssue) :
    List UnifiedAccount × List NormalizedIssue × List (String × String) :=
  let epic_map := build_epic_to_account_map sf ji
  let by_id := sfById sf
  let accKeys := by_id.map (·.1)
  let orphans := ji.filter (fun i => (issueAccount epic_map accKeys i).isNone)
  let unified := by_id.map (fun kv =>
    let (acc_id, acc) := kv
    let issues := ji.filter (fun i =>
      issueAccount epic_map accKeys i = some acc_id)
    let (oi, p1, p2, p3) := countOpen issues
    { AccountID := acc_id
      AccountName := acc.AccountName
      ARR := acc.ARR
      RenewalDate := acc.RenewalDate
      Stage := acc.Stage
      Region := acc.Region
      Industry := acc.Industry
      OpenIssues := oi
      OpenP1Issues := p1
      OpenP2Issues := p2
      OpenP3Issues := p3
      LastIssueDate := maxCreated issues
      LinkedIssues := linkedProjection issues })
  (unified, orphans, epic_map)

/-- The blanket `except Exception as e: raise HTTPException(500, str(e))`
    at the end of both mcp endpoints: any exception from the body —
    including an `HTTPException` raised inside the `try` — is re-raised
    as a 500 whose detail is `str(e)`. -/
def catchAllTo500 (r : Except HErr α) : Except HErr α :=
  match r with
  | .ok a => .ok a
  | .error e => .error ⟨500, strOfHErr e⟩

/-- The `try` body of `get_account`: normalize, unify, linear scan,
    `raise HTTPException(404, "Account not found")` on a miss.  (The
    upstream fetches are replaced by the raw record inputs.) -/
def get_account_body (sf_raw ji_raw : List Row) (account_id : String) :
    Except HErr UnifiedAccount :=
  let sf := normalize_salesforce sf_raw
  let ji := normalize_jira ji_raw
  let (unified, _, _) := unify_accounts sf ji
  match unified.find? (fun a => a.AccountID = account_id) with
  | some a => .ok a
  | none => .error ⟨404, "Account not found"⟩

/-- `get_account` from src/mcp/routes.py: the body runs inside
    `try: ... except requests.HTTPError ... except Exception as e:
    raise HTTPException(500, str(e))`; `fastapi.HTTPException` is a
    subclass of `Exception`, so the 404 raised on a miss is caught by the
    final handler and re-raised as a 500. -/
def get_account (sf_raw ji_raw : List Row) (account_id : String) :
    Except HErr UnifiedAccount :=
  catchAllTo500 (get_account_body sf_raw ji_raw account_id)

/- ---------------------------------------------------------------------
   src/mcp/insights.py
   --------------------------------------------------------------------- -/

/-- A `datetime.date` value. -/
structure PyDate where
  year : Nat
  month : Nat
  day : Nat
  deriving DecidableEq, Repr

/-- Encoding of a date for comparisons: Python compares dates
    componentwise (year, month, day), i.e. lexicographically. -/
def dateKey (d : PyDate) : List Int :=
  [(d.year : Int), (d.month : Int), (d.day : Int)]

/-- `parse_date` from insights.py: `datetime.strptime(s, "%Y-%m-%d")`,
    `None` on falsy input or any parse failure. -/
def parse_date (s : Option String) : Option PyDate :=
  match s with
  | none => none
  | some str =>
      if str = "" then none
      else
        match tryFmt .ymd '-' str.data with
        | some (y, m, d) => some ⟨y, m, d⟩
        | none => none

/-- The successor day in the Gregorian calendar. -/
def nextDay (d : PyDate) : PyDate :=
  if d.day < daysInMonth d.year d.month then ⟨d.year, d.month, d.day + 1⟩
  else if d.month < 12 then ⟨d.year, d.month + 1, 1⟩
  else ⟨d.year + 1, 1, 1⟩

/-- `date + timedelta(days=n)`. -/
def addDays (d : PyDate) (n : Nat) : PyDate :=
  Nat.iterate nextDay n d

/-- `date.isoformat()` for a `PyDate`. -/
def isoOfDate (d : PyDate) : String := isoFormat d.year d.month d.day

/-- `_open_key_for` from insights.py: upper-case the priority, 400 unless
    it is one of P1/P2/P3, otherwise the matching counter field name. -/
def open_key_for (priority : String) : Except HErr String :=
  let p := pyUpper priority
  if p = "P1" then .ok "OpenP1Issues"
  else if p = "P2" then .ok "OpenP2Issues"
  else if p = "P3" then .ok "OpenP3Issues"
  else .error ⟨400, "priority must be one of P1, P2, P3"⟩

/-- `a.get(open_key) or 0` for the three counter field names produced by
    `open_key_for`. -/
def getOpenKey (a : UnifiedAccount) (k : String) : Nat :=
  if k = "OpenP1Issues" then a.OpenP1Issues
  else if k = "OpenP2Issues" then a.OpenP2Issues
  else if k = "OpenP3Issues" then a.OpenP3Issues
  else 0

/-- `_text_match` from insights.py. -/
def text_match (val : Option String) (needle : Option String) : Bool :=
  if !optTruthy needle then true
  else containsCI (val.getD "") (needle.getD "")

/-- The optional filters shared by the insights endpoints. -/
structure Filters where
  region : Option String := none
  stage : Option String := none
  industry : Option String := none
  account_name_contains : Option String := none
  arr_min : Option Int := none
  arr_max : Option Int := none

/-- `_passes_filters` from insights.py. -/
def passes_filters (a : UnifiedAccount) (f : Filters) : Bool :=
  if optTruthy f.region && pyLower (a.Region.getD "") ≠ pyLower (f.region.getD "") then
    false
  else if optTruthy f.stage && pyLower (a.Stage.getD "") ≠ pyLower (f.stage.getD "") then
    false
  else if optTruthy f.industry && pyLower (a.Industry.getD "") ≠ pyLower (f.industry.getD "") then
    false
  else if optTruthy f.account_name_contains &&
      !text_match (some a.AccountName) f.account_name_contains then
    false
  else
    let arr := a.ARR.getD 0
    if f.arr_min.elim false (fun m => arr < m) then false
    else if f.arr_max.elim false (fun m => arr > m) then false
    else true

/-- `_is_open` from insights.py. -/
def is_open (status : Option String) : Bool :=
  pyLower (status.getD "") ≠ "closed"

/-- `_is_enhancement` from insights.py. -/
def is_enhancement (summary : Option String) : Bool :=
  containsCI (summary.getD "") "enhancement"

/-- `_open_count_for_account` from insights.py: for `issue_type == "bug"`
    recompute from `LinkedIssues` (open, matching priority, summary not an
    enhancement) — note this branch never validates the priority;
    otherwise read the precomputed counter via `_open_key_for`. -/
def open_count_for_account (a : UnifiedAccount) (priority : String)
    (issue_type : Option String) : Except HErr Nat :=
  if optTruthy issue_type && pyLower (issue_type.getD "") = "bug" then
    let prio := pyUpper priority
    .ok ((a.LinkedIssues.filter (fun i =>
      is_open (some i.Status) && pyUpper i.Priority = prio &&
        !is_enhancement (some i.Summary))).length)
  else
    (open_key_for priority).map (fun k => getOpenKey a k)

/-- Result row of `/insights/top-revenue` (`TopRevenueItem`); the dynamic
    `open_key` entry is the `openCount` field. -/
structure TopRevenueItem where
  AccountID : String
  AccountName : String
  ARR : Option Int
  RenewalDate : Option String
  Region : Option String
  Stage : Option String
  openCount : Nat
  deriving DecidableEq, Repr

/-- Response of `/insights/top-revenue`. -/
structure TopRevenueResponse where
  priority : String
  count : Nat
  items : List TopRevenueItem
  deriving DecidableEq, Repr

/-- The per-account projection of the `top_revenue` items loop. -/
def topRevenueItemOf (okey : String) (a : UnifiedAccount) : TopRevenueItem :=
  { AccountID := a.AccountID
    AccountName := a.AccountName
    ARR := a.ARR
    RenewalDate := a.RenewalDate
    Region := a.Region
    Stage := a.Stage
    openCount := getOpenKey a okey }

/-- `top_revenue` from insights.py, with the fetched unified list as
    input: keep accounts with a positive counter at `priority` that pass
    the filters, stable-sort by ARR descending, take `limit`, project. -/
def top_revenue (accounts : List UnifiedAccount) (priority : String)
    (limit : Nat) (f : Filters) : Except HErr TopRevenueResponse := do
  let open_key ← open_key_for priority
  let impacted := accounts.filter (fun a => 0 < getOpenKey a open_key)
  let impacted := impacted.filter (fun a => passes_filters a f)
  let sorted := sortByKeyDesc (fun a : UnifiedAccount => [a.ARR.getD 0]) impacted
  let items := (sorted.take limit).map (topRevenueItemOf open_key)
  .ok { priority := pyUpper priority, count := items.length, items := items }

/-- Result row of `/insights/renewals-with`. -/
structure RenewalsItem where
  AccountID : String
  AccountName : String
  ARR : Option Int
  RenewalDate : Option String
  OpenIssues : Nat
  Region : Option String
  Stage : Option String
  openCount : Nat
  deriving DecidableEq, Repr

/-- Response of `/insights/renewals-with`. -/
structure RenewalsResponse where
  priority : String
  as_of : String
  window_days : Nat
  count : Nat
  items : List RenewalsItem
  deriving DecidableEq, Repr

/-- `renewals_with` from insights.py.  `utcnow` stands for
    `datetime.utcnow().date()` (used only when `today` is falsy).  If
    `today` is supplied but unparseable, `base_today` is `None` in the
    source and `None + timedelta` raises an uncaught `TypeError`, which
    FastAPI surfaces as a plain 500. -/
def renewals_with (accounts : List UnifiedAccount) (priority : String)
    (days : Nat) (today : Option String) (utcnow : PyDate) (limit : Nat)
    (f : Filters) : Except HErr RenewalsResponse := do
  let open_key ← open_key_for priority
  let base ← (match (if optTruthy today then parse_date today else some utcnow) with
    | some b => Except.ok b
    | none => Except.error ⟨500, "Internal Server Error"⟩)
  let horizon := addDays base days
  let due_soon : UnifiedAccount → Bool := fun a =>
    match parse_date a.RenewalDate with
    | some rd => dateKey base ≤ dateKey rd && dateKey rd ≤ dateKey horizon
    | none => false
  let impacted := accounts.filter (fun a =>
    due_soon a && 0 < getOpenKey a open_key)
  let impacted := impacted.filter (fun a => passes_filters a f)
  let sorted := sortByKey (fun a : UnifiedAccount =>
    dateKey ((parse_date a.RenewalDate).getD horizon) ++ [-(a.ARR.getD 0)]) impacted
  let items := (sorted.take limit).map (fun a =>
    { AccountID := a.AccountID
      AccountName := a.AccountName
      ARR := a.ARR
      RenewalDate := a.RenewalDate
      OpenIssues := a.OpenIssues
      Region := a.Region
      Stage := a.Stage
      openCount := getOpenKey a open_key : RenewalsItem })
  .ok { priority := pyUpper priority, as_of := isoOfDate base,
        window_days := days, count := items.length, items := items }

/-- Result row of `/insights/accounts-with-critical`. -/
structure CriticalItem where
  AccountID : String
  AccountName : String
  ARR : Option Int
  OpenIssues : Nat
  LastIssueDate : Option String
  Region : Option String
  openCount : Nat
  deriving DecidableEq, Repr

/-- Response of `/insights/accounts-with-critical`. -/
structure CriticalResponse where
  priority : String
  threshold : Nat
  count : Nat
  items : List CriticalItem
  deriving DecidableEq, Repr

/-- `accounts_with_critical` from insights.py: keep accounts whose counter
    lies in `[min, max]` (no upper bound when `max` is absent) and pass
    the filters; stable-sort by (counter, ARR) descending; take `limit`. -/
def accounts_with_critical (accounts : List UnifiedAccount) (minA : Nat)
    (maxA : Option Nat) (priority : String) (limit : Nat) (f : Filters) :
    Except HErr CriticalResponse := do
  let open_key ← open_key_for priority
  let flagged := accounts.filter (fun a =>
    let cnt := getOpenKey a open_key
    !(cnt < minA) && !(maxA.elim false (fun mx => mx < cnt)) &&
      passes_filters a f)
  let sorted := sortByKeyDesc (fun a : UnifiedAccount =>
    [(getOpenKey a open_key : Int), a.ARR.getD 0]) flagged
  let items := (sorted.take limit).map (fun a =>
    { AccountID := a.AccountID
      AccountName := a.AccountName
      ARR := a.ARR
      OpenIssues := a.OpenIssues
      LastIssueDate := a.LastIssueDate
      Region := a.Region
      openCount := getOpenKey a open_key : CriticalItem })
  .ok { priority := pyUpper priority, threshold := minA,
        count := items.length, items := items }

/-- `statistics.median` of a list of integers (exact value; the sorted
    middle element, or the mean of the two middle elements). -/
def median (l : List Int) : ℚ :=
  let s := sortByKey (fun n : Int => [n]) l
  let n := s.length
  if n % 2 = 1 then ((s.getD (n / 2) 0 : Int) : ℚ)
  else (((s.getD (n / 2 - 1) 0 + s.getD (n / 2) 0 : Int) : ℚ)) / 2

/-- One priority block of the `/insights/summary` response. -/
structure PriorityBlock where
  accounts_with_open : Nat
  total_open : Nat
  median_arr_impacted : ℚ
  deriving DecidableEq, Repr

/-- Response of `/insights/summary`. -/
structure SummaryResponse where
  total_accounts : Nat
  p1 : PriorityBlock
  p2 : PriorityBlock
  p3 : PriorityBlock
  deriving DecidableEq, Repr

/-- The inner `collect` of `summary`. -/
def summaryCollect (accounts : List UnifiedAccount) (priority : String) :
    Except HErr PriorityBlock := do
  let key ← open_key_for priority
  let impacted := accounts.filter (fun a => 0 < getOpenKey a key)
  let total_open := (accounts.map (fun a => getOpenKey a key)).sum
  let arrs := impacted.map (fun a => a.ARR.getD 0)
  let median_arr := if arrs.isEmpty then 0 else median arrs
  .ok { accounts_with_open := impacted.length, total_open := total_open,
        median_arr_impacted := median_arr }

/-- `summary` from insights.py: the P1/P2/P3 rollups.  It takes no
    priority argument; the three priorities are fixed literals. -/
def summary (accounts : List UnifiedAccount) : Except HErr SummaryResponse := do
  let p1 ← summaryCollect accounts "P1"
  let p2 ← summaryCollect accounts "P2"
  let p3 ← summaryCollect accounts "P3"
  .ok { total_accounts := accounts.length, p1 := p1, p2 := p2, p3 := p3 }

/-- One bucket row of `/insights/group-by`. -/
structure GroupBucket where
  group : String
  accounts_with_open : Nat
  total_open : Nat
  deriving DecidableEq, Repr

/-- Response of `/insights/group-by`. -/
structure GroupByResponse where
  priority : String
  group_by : String
  count : Nat
  items : List GroupBucket
  deriving DecidableEq, Repr

/-- The dimension field read by `group_by` (`dim_map`). -/
def dimValue (a : UnifiedAccount) (dim : String) : Option String :=
  if dim = "region" then a.Region
  else if dim = "stage" then a.Stage
  else a.Industry

/-- One iteration of the bucket-accumulation loop of `group_by`:
    filtered-out accounts are skipped, the open count is computed (which
    can raise for a bad priority when the precomputed counter is read),
    zero-count accounts are skipped, and the dimension bucket (absent →
    "Unknown") is updated. -/
def groupByStep (priority : String) (issue_type : Option String)
    (f : Filters) (dim : String) (buckets : List (String × Nat × Nat))
    (a : UnifiedAccount) : Except HErr (List (String × Nat × Nat)) := do
  if !passes_filters a f then
    pure buckets
  else
    let open_cnt ← open_count_for_account a priority issue_type
    if open_cnt ≤ 0 then
      pure buckets
    else
      let key := if optTruthy (dimValue a dim) then (dimValue a dim).getD ""
        else "Unknown"
      let cur := (buckets.lookup key).getD (0, 0)
      pure (assocSet buckets key (cur.1 + 1, cur.2 + open_cnt))

/-- The bucket-accumulation loop of `group_by`; `open_count_for_account`
    can raise, so the fold is in the exception monad. -/
def groupByFold (accounts : List UnifiedAccount) (priority : String)
    (issue_type : Option String) (f : Filters) (dim : String) :
    Except HErr (List (String × Nat × Nat)) :=
  accounts.foldlM (groupByStep priority issue_type f dim) []

/-- `group_by` from insights.py.  The `group_by` query parameter is
    validated by FastAPI against `^(region|stage|industry)$` (a 422
    validation failure before the handler runs); the priority is only
    examined per-account inside the loop. -/
def group_by (accounts : List UnifiedAccount) (priority : String)
    (group_by_param : String) (issue_type : Option String) (f : Filters) :
    Except HErr GroupByResponse := do
  if group_by_param ≠ "region" && group_by_param ≠ "stage" &&
      group_by_param ≠ "industry" then
    Except.error ⟨422, "String should match pattern"⟩
  else
    let dim := pyLower group_by_param
    let buckets ← groupByFold accounts priority issue_type f dim
    let items := buckets.map (fun b =>
      { group := b.1, accounts_with_open := b.2.1, total_open := b.2.2 :
        GroupBucket })
    let items := sortByKeyDesc (fun b : GroupBucket => [(b.total_open : Int)]) items
    .ok { priority := pyUpper priority, group_by := pyLower group_by_param,
          count := items.length, items := items }

/- ---------------------------------------------------------------------
   src/agent/routes.py: plan schema and text-inference helpers.
   --------------------------------------------------------------------- -/

/-- `StepOp`: the pydantic `Literal` of plan-step tags.  (Validation at
    the model boundary means no other tag can reach the executor; the
    executor's `unknown op` branch is unreachable for a parsed `Plan`.) -/
inductive StepOp where
  | fetch : StepOp
  | filter : StepOp
  | select : StepOp
  | sort : StepOp
  | top : StepOp
  | group : StepOp
  | summarize : StepOp
  deriving DecidableEq, Repr

/-- `FetchArgs`: target endpoint plus parameter dict. -/
structure FetchArgs where
  endpoint : String
  params : Row

/-- `FilterCond`: field, operator (one of `= != > >= < <= contains in`),
    comparison value. -/
structure FilterCond where
  field : String
  op : String
  value : Value

/-- `SortSpec` (`by` is `by_` here; `by` is a Lean keyword). -/
structure SortSpec where
  by_ : String
  order : String := "desc"

/-- `GroupSpec`. -/
structure GroupSpec where
  by_ : String
  agg : String := "count"
  field : Option String := none

/-- `PlanStep`: the tag plus the per-tag optional payloads. -/
structure PlanStep where
  op : StepOp
  fetch : Option FetchArgs := none
  filter : Option (List FilterCond) := none
  select : Option (List String) := none
  sort : Option SortSpec := none
  top : Option Nat := none
  group : Option GroupSpec := none

/-- `Plan`. -/
structure Plan where
  intent : String := "answer"
  steps : List PlanStep
  answer_template : Option String := none

/-- `_priority_map` from agent/routes.py. -/
def priority_map (tok : String) : String :=
  let t := pyLower tok
  if t ∈ ["p0", "sev0", "sev1", "p1", "critical", "high", "severity high"] then "P1"
  else if t ∈ ["p2", "sev2", "medium"] then "P2"
  else if t ∈ ["p3", "sev3", "low"] then "P3"
  else "P1"

/-- `_prio_from_text` from agent/routes.py. -/
def prio_from_text (text : String) : String :=
  let low := pyLower text
  if ["p0", "sev0", "sev1", "high", "severity high", "p1"].any
      (fun k => containsCI low k) then "P1"
  else if ["p2", "sev2", "medium"].any (fun k => containsCI low k) then "P2"
  else if ["p3", "sev3", "low"].any (fun k => containsCI low k) then "P3"
  else "P1"

/-- `_default_params_for` from agent/routes.py. -/
def default_params_for (endpoint : String) : Row :=
  if endpoint = "/insights/top-revenue" then
    [("priority", vStr "P1"), ("limit", vInt 10)]
  else if endpoint = "/insights/renewals-with" then
    [("priority", vStr "P1"), ("days", vInt 60), ("limit", vInt 100)]
  else if endpoint = "/insights/accounts-with-critical" then
    [("priority", vStr "P1"), ("min", vInt 3), ("limit", vInt 10)]
  else if endpoint = "/insights/group-by" then
    [("priority", vStr "P1"), ("group_by", vStr "region")]
  else if endpoint = "/mcp/accounts" then
    [("limit", vInt 100), ("offset", vInt 0)]
  else []

/-- Exact decimal parse of the string accepted by `float(s)` on the digit
    and dot tokens the ARR regexes produce (optional sign, digits with at
    most one dot; exponent/inf forms never arise from those regexes). -/
def parseDecimalQ (l : List Char) : Option ℚ :=
  let (sgn, l1) : Int × List Char :=
    match l with
    | '+' :: rest => (1, rest)
    | '-' :: rest => (-1, rest)
    | _ => (1, l)
  let ip := l1.takeWhile isDigitChar
  let rest := l1.dropWhile isDigitChar
  match rest with
  | [] => if ip.isEmpty then none else some (sgn * (digitsToNat ip : Int))
  | '.' :: rest2 =>
      let fp := rest2.takeWhile isDigitChar
      let rest3 := rest2.dropWhile isDigitChar
      if rest3.isEmpty && !(ip.isEmpty && fp.isEmpty) then
        some ((sgn : ℚ) * ((digitsToNat ip : ℚ) +
          (digitsToNat fp : ℚ) / ((10 : ℚ) ^ fp.length)))
      else none
  | _ => none

/-- `int(x)` truncation toward zero on an exact rational. -/
def truncQ (q : ℚ) : Int :=
  if 0 ≤ q then ⌊q⌋ else -⌊-q⌋

/-- `_num_from_text` from agent/routes.py: strip/lower, drop commas,
    apply a `k`/`m` suffix multiplier, convert via `int(float(s) * mult)`.
    The float round-trip is modelled exactly over `ℚ` (Python's binary
    float can differ in the last place for some decimal fractions; no
    claim depends on those values). -/
def num_from_text (tok : Option String) : Option Int :=
  match tok with
  | none => none
  | some t =>
      let s := ((pyLower (pyStrip t)).data.filter (fun c => c ≠ ','))
      let (mult, s') : Int × List Char :=
        match s.reverse with
        | 'k' :: r => (1000, r.reverse)
        | 'm' :: r => (1000000, r.reverse)
        | _ => (1, s)
      match parseDecimalQ s' with
      | some q => some (truncQ (q * (mult : ℚ)))
      | none => none

/-- `RELATIVE_TIME` from agent/routes.py (ordered phrase table). -/
def RELATIVE_TIME : List (String × Nat) :=
  [("this quarter", 90), ("next quarter", 90), ("next month", 30),
   ("this month", 30), ("this week", 7), ("next week", 7)]

/- ---------------------------------------------------------------------
   The regex guardrails of agent/routes.py, implemented directly over the
   character list.  Each scanner mirrors `re.search` (leftmost match;
   alternatives tried in pattern order at each position).  The patterns
   are built from literal words, digit runs and word boundaries, so
   greedy scanning is exact (no backtracking can produce a different
   match, as the character classes are disjoint from what follows them).
   --------------------------------------------------------------------- -/

/-- Leftmost-position scan: try the matcher at every suffix, threading the
    preceding character for `\b` word-boundary tests. -/
def firstMatchB (f : Option Char → List Char → Option α) :
    Option Char → List Char → Option α
  | prev, [] => f prev []
  | prev, c :: cs =>
      match f prev (c :: cs) with
      | some a => some a
      | none => firstMatchB f (some c) cs

/-- True when the scan position is at a `\b` boundary coming from a
    non-word (or absent) previous character. -/
def atWordStart (prev : Option Char) : Bool :=
  match prev with
  | none => true
  | some p => !isWordChar p

/-- `\b` after a match: next character absent or non-word. -/
def boundaryAfter : List Char → Bool
  | [] => true
  | c :: _ => !isWordChar c

/-- Match one of the literal alternatives (in order) as a prefix of `l`,
    returning the alternative and the remainder. -/
def matchAlt (alts : List String) (l : List Char) :
    Option (String × List Char) :=
  alts.findSome? (fun a =>
    if a.data.isPrefixOf l then some (a, l.drop a.data.length) else none)

/-- `GROUPBY_RE = re.compile(r"group by (region|stage|industry)", re.I)`:
    leftmost match, returning group 1. -/
def groupbySearch (q : String) : Option String :=
  firstMatchB
    (fun _ l =>
      if ("group by ".data).isPrefixOf l then
        (matchAlt ["region", "stage", "industry"]
          (l.drop "group by ".data.length)).map (·.1)
      else none)
    none (pyLower q).data

/-- `BUGS_ONLY_RE = (bugs? only|bug only|not counting enhancements)`,
    case-insensitive search. -/
def bugsOnlySearch (q : String) : Bool :=
  containsCI q "bugs only" || containsCI q "bug only" ||
    containsCI q "not counting enhancements"

/-- The alternatives of `OUT_OF_SCOPE_RE` (pattern order). -/
def OUT_OF_SCOPE_WORDS : List String :=
  ["churn", "nps", "net promoter", "csat", "c-sat", "cohort", "ltv",
   "lifetime value", "cac", "funnel", "conversion rate", "ctr", "arpu",
   "mau", "wau", "dau", "retention", "engagement"]

/-- `OUT_OF_SCOPE_RE.search`: some alternative occurs with `\b` on both
    sides (case-insensitive). -/
def outOfScopeSearch (q : String) : Bool :=
  (firstMatchB
    (fun prev l =>
      if atWordStart prev then
        match OUT_OF_SCOPE_WORDS.findSome? (fun w =>
          if w.data.isPrefixOf l && boundaryAfter (l.drop w.data.length) then
            some w
          else none) with
        | some w => some w
        | none => none
      else none)
    none (pyLower q).data).isSome

/-- `SHOW_ALL_RE =
    \b(show|list|display)\s+(all|everything|data|accounts)\b|\ball data\b|\braw\b`. -/
def showAllSearch (q : String) : Bool :=
  (firstMatchB
    (fun prev l =>
      if atWordStart prev then
        match matchAlt ["show", "list", "display"] l with
        | some (_, rest) =>
            let sp := rest.takeWhile isSpaceChar
            let rest2 := rest.dropWhile isSpaceChar
            if sp.length ≥ 1 then
              match matchAlt ["all", "everything", "data", "accounts"] rest2 with
              | some (_, rest3) =>
                  if boundaryAfter rest3 then some () else none
              | none => none
            else none
        | none =>
            if "all data".data.isPrefixOf l &&
                boundaryAfter (l.drop "all data".data.length) then some ()
            else if "raw".data.isPrefixOf l &&
                boundaryAfter (l.drop "raw".data.length) then some ()
            else none
      else none)
    none (pyLower q).data).isSome

/-- `ACCOUNT_ID_RE = re.compile(r"\bA\d{3,}\b", re.I)`: the literal letter
    `A` (either case) followed by three or more digits, word-bounded.
    Returns `m.group(0)` of the leftmost match. -/
def accountIdFind (q : String) : Option String :=
  firstMatchB
    (fun prev l =>
      match l with
      | c :: rest =>
          if atWordStart prev && (c = 'A' || c = 'a') then
            let ds := rest.takeWhile isDigitChar
            if ds.length ≥ 3 && boundaryAfter (rest.drop ds.length) then
              some (String.mk (c :: ds))
            else none
          else none
      | [] => none)
    none q.data

/-- A number token of the ARR regexes: `[0-9][0-9,\.]*\s*[km]?` (greedy;
    the trailing spaces and multiplier are part of the captured group and
    stripped again by `_num_from_text`).  Returns (token, remainder). -/
def numToken (l : List Char) : Option (List Char × List Char) :=
  match l with
  | c :: rest =>
      if isDigitChar c then
        let run := rest.takeWhile (fun x => isDigitChar x || x = ',' || x = '.')
        let rest2 := rest.dropWhile (fun x => isDigitChar x || x = ',' || x = '.')
        let sp := rest2.takeWhile isSpaceChar
        let rest3 := rest2.dropWhile isSpaceChar
        match rest3 with
        | k :: rest4 =>
            if k = 'k' || k = 'm' then some (c :: run ++ sp ++ [k], rest4)
            else some (c :: run ++ sp, rest3)
        | [] => some (c :: run ++ sp, [])
      else none
  | [] => none

/-- `ARR_CMP_RE = \barr\s*(>=|>|<=|<|=)\s*([0-9][0-9,\.]*\s*[km]?)`:
    leftmost match, returning (group 1, group 2). -/
def arrCmpSearch (q : String) : Option (String × String) :=
  firstMatchB
    (fun prev l =>
      if atWordStart prev && "arr".data.isPrefixOf l then
        let rest := (l.drop 3).dropWhile isSpaceChar
        match matchAlt [">=", ">", "<=", "<", "="] rest with
        | some (op, rest2) =>
            let rest3 := rest2.dropWhile isSpaceChar
            (numToken rest3).map (fun p => (op, String.mk p.1))
        | none => none
      else none)
    none (pyLower q).data

/-- `ARR_RANGE_RE = \barr\s*(\d[\d,\.]*\s*[km]?)\s*(?:to|-)\s*(\d[\d,\.]*\s*[km]?)`. -/
def arrRangeSearch (q : String) : Option (String × String) :=
  firstMatchB
    (fun prev l =>
      if atWordStart prev && "arr".data.isPrefixOf l then
        let rest := (l.drop 3).dropWhile isSpaceChar
        match numToken rest with
        | some (t1, rest2) =>
            let rest3 := rest2.dropWhile isSpaceChar
            match matchAlt ["to", "-"] rest3 with
            | some (_, rest4) =>
                let rest5 := rest4.dropWhile isSpaceChar
                (numToken rest5).map (fun p => (String.mk t1, String.mk p.1))
            | none => none
        | none => none
      else none)
    none (pyLower q).data

/-- `NAME_CONTAINS_RE =
    (?:name|account name)\s*(?:contains|like)\s*['\"]?([A-Za-z0-9 _-]+)['\"]?`. -/
def nameContainsSearch (q : String) : Option String :=
  firstMatchB
    (fun _ l =>
      match matchAlt ["name", "account name"] l with
      | some (_, rest) =>
          let rest2 := rest.dropWhile isSpaceChar
          match matchAlt ["contains", "like"] rest2 with
          | some (_, rest3) =>
              let rest4 := rest3.dropWhile isSpaceChar
              let rest5 := match rest4 with
                | c :: r => if c = '\x27' || c = '"' then r else rest4
                | [] => rest4
              let isNameChar : Char → Bool := fun c =>
                c.isAlpha || isDigitChar c || c = ' ' || c = '_' || c = '-'
              let run := rest5.takeWhile isNameChar
              if run.isEmpty then none else some (String.mk run)
          | none => none
      | none => none)
    none (pyLower q).data

/-- One match attempt of `P_THRESHOLD_RE =
    \b(p1|p2|p3)\s*(?:issues?|=)?\s*(>=|>|<=|<|=)?\s*(\d+)?` at the scan
    position: returns the three groups (empty string when unmatched, as
    `findall` does) and the number of characters consumed. -/
def pThresholdAt (prev : Option Char) (l : List Char) :
    Option ((String × String × String) × Nat) :=
  if atWordStart prev then
    match matchAlt ["p1", "p2", "p3"] l with
    | some (px, rest) =>
        let sp1 := rest.takeWhile isSpaceChar
        let rest2 := rest.dropWhile isSpaceChar
        let (iss, rest3) : List Char × List Char :=
          if "issue".data.isPrefixOf rest2 then
            let r := rest2.drop 5
            match r with
            | 's' :: r2 => ("issues".data, r2)
            | _ => ("issue".data, r)
          else match rest2 with
            | '=' :: r => (['='], r)
            | _ => ([], rest2)
        let sp2 := rest3.takeWhile isSpaceChar
        let rest4 := rest3.dropWhile isSpaceChar
        let (op, rest5) : String × List Char :=
          match matchAlt [">=", ">", "<=", "<", "="] rest4 with
          | some (o, r) => (o, r)
          | none => ("", rest4)
        let sp3 := rest5.takeWhile isSpaceChar
        let rest6 := rest5.dropWhile isSpaceChar
        let ds := rest6.takeWhile isDigitChar
        let consumed :=
          2 + sp1.length + iss.length + sp2.length + op.data.length +
            sp3.length + ds.length
        some ((px, op, String.mk ds), consumed)
    | none => none
  else none

/-- `P_THRESHOLD_RE.findall(low)`: all non-overlapping matches, scanning
    left to right (fuel-driven loop; each match consumes at least two
    characters). -/
def pThresholdFindall (fuel : Nat) (prev : Option Char) (l : List Char) :
    List (String × String × String) :=
  match fuel with
  | 0 => []
  | fuel' + 1 =>
      match l with
      | [] => []
      | c :: cs =>
          match pThresholdAt prev (c :: cs) with
          | some (groups, consumed) =>
              let rest := (c :: cs).drop consumed
              let newPrev := ((c :: cs).take consumed).getLast? 
              groups :: pThresholdFindall fuel' newPrev rest
          | none => pThresholdFindall fuel' (some c) cs

/-- `REGION_TOK_RE = \b(apac|europe|emea|north america|na|latam)\b`
    (alternatives in pattern order; a failed trailing boundary falls
    through to the next alternative at the same position). -/
def regionTokSearch (q : String) : Option String :=
  firstMatchB
    (fun prev l =>
      if atWordStart prev then
        ["apac", "europe", "emea", "north america", "na", "latam"].findSome?
          (fun w =>
            if w.data.isPrefixOf l && boundaryAfter (l.drop w.data.length) then
              some w
            else none)
      else none)
    none (pyLower q).data

/-- `STAGE_EQ_RE = stage\s*=\s*([a-z ]+)` (case-insensitive; run over the
    lowered text, where `[a-z ]` is letters and spaces). -/
def stageEqSearch (q : String) : Option String :=
  firstMatchB
    (fun _ l =>
      if "stage".data.isPrefixOf l then
        let rest := (l.drop 5).dropWhile isSpaceChar
        match rest with
        | '=' :: rest2 =>
            let rest3 := rest2.dropWhile isSpaceChar
            let run := rest3.takeWhile (fun c => c.isAlpha || c = ' ')
            if run.isEmpty then none else some (String.mk run)
        | _ => none
      else none)
    none (pyLower q).data

/-- `INDUSTRY_EQ_RE = industry\s*=\s*([a-z ]+)`. -/
def industryEqSearch (q : String) : Option String :=
  firstMatchB
    (fun _ l =>
      if "industry".data.isPrefixOf l then
        let rest := (l.drop 8).dropWhile isSpaceChar
        match rest with
        | '=' :: rest2 =>
            let rest3 := rest2.dropWhile isSpaceChar
            let run := rest3.takeWhile (fun c => c.isAlpha || c = ' ')
            if run.isEmpty then none else some (String.mk run)
        | _ => none
      else none)
    none (pyLower q).data

/-- The priority-token search of the fallback planner:
    `\b(p0|p1|p2|p3|sev1|sev2|sev3|high|medium|low)\b`. -/
def prioTokSearch (low : String) : Option String :=
  firstMatchB
    (fun prev l =>
      if atWordStart prev then
        ["p0", "p1", "p2", "p3", "sev1", "sev2", "sev3", "high", "medium",
          "low"].findSome? (fun w =>
            if w.data.isPrefixOf l && boundaryAfter (l.drop w.data.length) then
              some w
            else none)
      else none)
    none low.data

/-- `re.search(r"\bcsv|download\b", low)`: the alternation binds the whole
    pattern, so it is `\bcsv` (boundary only before) or `download\b`
    (boundary only after). -/
def csvSearch (low : String) : Bool :=
  (firstMatchB
    (fun prev l =>
      if atWordStart prev && "csv".data.isPrefixOf l then some ()
      else if "download".data.isPrefixOf l &&
          boundaryAfter (l.drop 8) then some ()
      else none)
    none low.data).isSome

/-- `re.search(r"(\d+)\s*(day|days)", low)`: leftmost digit run followed
    by optional spaces and `day`. -/
def daysSearch (low : String) : Option Nat :=
  firstMatchB
    (fun _ l =>
      match l with
      | c :: _ =>
          if isDigitChar c then
            let ds := l.takeWhile isDigitChar
            let rest := (l.dropWhile isDigitChar).dropWhile isSpaceChar
            if "day".data.isPrefixOf rest then some (digitsToNat ds) else none
          else none
      | [] => none)
    none low.data

/-- `_infer_days` from agent/routes.py. -/
def infer_days (text : String) : Option Nat :=
  let low := pyLower text
  match RELATIVE_TIME.findSome? (fun pd =>
    if containsCI low pd.1 then some pd.2 else none) with
  | some d => some d
  | none => daysSearch low

/-- `re.search(r"(?:at least|>=)\s*(\d+)", low)`. -/
def atLeastSearch (low : String) : Option Nat :=
  firstMatchB
    (fun _ l =>
      match matchAlt ["at least", ">="] l with
      | some (_, rest) =>
          let rest2 := rest.dropWhile isSpaceChar
          let ds := rest2.takeWhile isDigitChar
          if ds.isEmpty then none else some (digitsToNat ds)
      | none => none)
    none low.data

/-- `re.search(r"(\d+)\s*(?:to|-)\s*(\d+)", low)` (and the boolean variant
    used in the branch condition, which matches the same inputs). -/
def numRangeSearch (low : String) : Option (Nat × Nat) :=
  firstMatchB
    (fun _ l =>
      match l with
      | c :: _ =>
          if isDigitChar c then
            let ds := l.takeWhile isDigitChar
            let rest := (l.dropWhile isDigitChar).dropWhile isSpaceChar
            match matchAlt ["to", "-"] rest with
            | some (_, rest2) =>
                let rest3 := rest2.dropWhile isSpaceChar
                let ds2 := rest3.takeWhile isDigitChar
                if ds2.isEmpty then none
                else some (digitsToNat ds, digitsToNat ds2)
            | none => none
          else none
      | [] => none)
    none low.data

/-- Python `str.title()`: upper-case a letter following a non-letter,
    lower-case the rest. -/
def pyTitleChars : Bool → List Char → List Char
  | _, [] => []
  | prevAlpha, c :: cs =>
      let c' := if c.isAlpha then (if prevAlpha then c.toLower else c.toUpper)
        else c
      c' :: pyTitleChars c.isAlpha cs

/-- Python `str.title()`. -/
def pyTitle (s : String) : String := String.mk (pyTitleChars false s.data)

/-- `params.get(k, d)` read as a natural number (the plan `top`
    argument; the planner only stores the positive `limit` defaults). -/
def asNatD (v : Value) (d : Nat) : Nat :=
  match v with
  | vInt n => n.toNat
  | _ => d

/-- Plan-step builder: fetch. -/
def fetchStep (endpoint : String) (params : Row) : PlanStep :=
  { op := .fetch, fetch := some ⟨endpoint, params⟩ }

/-- Plan-step builder: filter. -/
def filterStep (conds : List FilterCond) : PlanStep :=
  { op := .filter, filter := some conds }

/-- Plan-step builder: sort. -/
def sortStep (f o : String) : PlanStep :=
  { op := .sort, sort := some ⟨f, o⟩ }

/-- Plan-step builder: top. -/
def topStep (n : Nat) : PlanStep :=
  { op := .top, top := some n }

/-- The answer template of the group-by plans (both the guardrail and the
    fallback build the same string). -/
def groupbyTemplate : String :=
  "Grouped by \x7b\x7bgroup_by\x7d\x7d with open \x7b\x7bpriority\x7d\x7d issues. Groups: \x7b\x7bcount\x7d\x7d. Total open: \x7b\x7bsum_total_open\x7d\x7d."

/-- `_filters_from_text` from agent/routes.py: region, stage, industry,
    name-contains, ARR comparison, ARR range, priority thresholds,
    account ID — in source order. -/
def filters_from_text (low : String) : List FilterCond :=
  let f1 : List FilterCond :=
    match regionTokSearch low with
    | some token =>
        let region := if token = "na" then "north america"
          else if token = "emea" then "europe" else token
        [⟨"Region", "=", vStr (pyTitle region)⟩]
    | none => []
  let f2 : List FilterCond :=
    match stageEqSearch low with
    | some g => [⟨"Stage", "=", vStr (pyTitle (pyStrip g))⟩]
    | none => []
  let f3 : List FilterCond :=
    match industryEqSearch low with
    | some g => [⟨"Industry", "=", vStr (pyTitle (pyStrip g))⟩]
    | none => []
  let f4 : List FilterCond :=
    match nameContainsSearch low with
    | some g => [⟨"AccountName", "contains", vStr (pyStrip g)⟩]
    | none => []
  let f5 : List FilterCond :=
    match arrCmpSearch low with
    | some (op, numTok) =>
        match num_from_text (some numTok) with
        | some n => [⟨"ARR", op, vInt n⟩]
        | none => []
    | none => []
  let f6 : List FilterCond :=
    match arrRangeSearch low with
    | some (t1, t2) =>
        match num_from_text (some t1), num_from_text (some t2) with
        | some a, some b =>
            [⟨"ARR", ">=", vInt (min a b)⟩, ⟨"ARR", "<=", vInt (max a b)⟩]
        | _, _ => []
    | none => []
  let f7 : List FilterCond :=
    (pThresholdFindall (low.data.length + 1) none low.data).map
      (fun g =>
        let (px, op, n) := g
        let field := if px = "p1" then "OpenP1Issues"
          else if px = "p2" then "OpenP2Issues" else "OpenP3Issues"
        if n ≠ "" then
          ⟨field, (if op ≠ "" then op else ">="), vInt (digitsToNat n.data)⟩
        else ⟨field, ">=", vInt 1⟩)
  let f8 : List FilterCond :=
    match accountIdFind low with
    | some tok => [⟨"AccountID", "=", vStr (pyUpper tok)⟩]
    | none => []
  f1 ++ f2 ++ f3 ++ f4 ++ f5 ++ f6 ++ f7 ++ f8

/-- The group-by plan built identically by guardrail (a) in `agent_query`
    and by the `fallback_plan` group-by branch; returns (group field,
    params, plan). -/
def groupbyPlan (text : String) : String × Row × Plan :=
  let gf := (groupbySearch text).getD ""
  let params := default_params_for "/insights/group-by"
  let params := dictSet params "group_by" (vStr gf)
  let params := dictSet params "priority" (vStr (prio_from_text text))
  let params := if bugsOnlySearch text then dictSet params "issue_type" (vStr "bug")
    else params
  (gf, params,
   { intent := "answer"
     steps := [fetchStep "/insights/group-by" params,
               sortStep "total_open" "desc"]
     answer_template := some groupbyTemplate })

/-- `fallback_plan` from agent/routes.py: out-of-scope → empty plan;
    `group by` → group-by plan; show-all/"accounts" → raw fetch with
    inferred filters; otherwise one of the three insights endpoints with
    inferred parameters and the endpoint-specific sort/top steps. -/
def fallback_plan (q : String) : Plan :=
  let low := pyLower q
  if outOfScopeSearch low then
    { intent := "answer", steps := [], answer_template := none }
  else if (groupbySearch low).isSome then
    (groupbyPlan low).2.2
  else if showAllSearch low ||
      (subOccurs "accounts".data low.data &&
        !subOccurs "group by".data low.data) then
    let params := default_params_for "/mcp/accounts"
    let filt := filters_from_text low
    let steps := [fetchStep "/mcp/accounts" params] ++
      (if filt.isEmpty then [] else [filterStep filt]) ++
      [sortStep "ARR" "desc",
       topStep (asNatD (rowGetD params "limit" (vInt 100)) 100)]
    { intent := "answer", steps := steps, answer_template := none }
  else
    let basePair : String × Row :=
      if containsCI low "renewal" || containsCI low "renewing" then
        let p := default_params_for "/insights/renewals-with"
        let p := match infer_days low with
          | some d => if d ≠ 0 then dictSet p "days" (vInt d) else p
          | none => p
        ("/insights/renewals-with", p)
      else ("/insights/top-revenue", default_params_for "/insights/top-revenue")
    let epPair : String × Row :=
      if containsCI low "critical" || containsCI low "at least" ||
          (numRangeSearch low).isSome then
        let p := default_params_for "/insights/accounts-with-critical"
        let p := match atLeastSearch low with
          | some n => dictSet p "min" (vInt n)
          | none => p
        let p := match numRangeSearch low with
          | some (a, b) =>
              dictSet (dictSet p "min" (vInt (min (a : Int) b))) "max"
                (vInt (max (a : Int) b))
          | none => p
        ("/insights/accounts-with-critical", p)
      else basePair
    let endpoint := epPair.1
    let params := epPair.2
    let params := match prioTokSearch low with
      | some t => dictSet params "priority" (vStr (priority_map t))
      | none => params
    let params := match regionTokSearch low with
      | some token =>
          dictSet params "region" (vStr (if token = "na" then "north america"
            else if token = "emea" then "europe" else token))
      | none => params
    let params := match industryEqSearch low with
      | some g => dictSet params "industry" (vStr (pyStrip g))
      | none => params
    let params := match stageEqSearch low with
      | some g => dictSet params "stage" (vStr (pyStrip g))
      | none => params
    let params := if bugsOnlySearch low then
        dictSet params "issue_type" (vStr "bug")
      else params
    let intent := if csvSearch low then "csv" else "answer"
    let steps := [fetchStep endpoint params] ++
      (if endpoint = "/insights/top-revenue" then
        [sortStep "ARR" "desc",
         topStep (asNatD (rowGetD params "limit" (vInt 10)) 10)]
      else []) ++
      (if endpoint = "/insights/accounts-with-critical" then
        [sortStep "ARR" "desc",
         topStep (asNatD (rowGetD params "limit" (vInt 10)) 10)]
      else []) ++
      (if endpoint = "/insights/renewals-with" then
        [topStep (asNatD (rowGetD params "limit" (vInt 100)) 100)]
      else [])
    { intent := intent, steps := steps, answer_template := none }

/- ---------------------------------------------------------------------
   src/agent/routes.py: the plan executor.
   --------------------------------------------------------------------- -/

/-- An exception escaping a plan step: an `HTTPException` (re-raised
    unchanged by `agent_query`) or a plain Python exception such as a
    `TypeError` from an unsupported comparison (wrapped by `agent_query`
    into a 500 "Plan execution error"). -/
inductive ExecErr where
  | http (e : HErr) : ExecErr
  | py (msg : String) : ExecErr

/-- `int(x)` on a value: ints pass through; strings parse as optionally
    signed decimal digits (Python also allows single underscores between
    digits); everything else raises (`none`). -/
def validTail : List Char → Bool
  | [] => true
  | '_' :: rest =>
      match rest with
      | c :: rest2 => isDigitChar c && validTail rest2
      | [] => false
  | c :: rest => isDigitChar c && validTail rest

/-- Shape check for the digits of `int(str)`: nonempty, digits possibly
    separated by single underscores. -/
def validIntDigits : List Char → Bool
  | [] => false
  | c :: rest => isDigitChar c && validTail rest

/-- `int(s)` for a string. -/
def parsePyIntStr (s : String) : Option Int :=
  let l := stripChars s.data
  let (sgn, l1) : Int × List Char :=
    match l with
    | '+' :: r => (1, r)
    | '-' :: r => (-1, r)
    | _ => (1, l)
  if validIntDigits l1 then
    some (sgn * (digitsToNat (l1.filter (fun c => c ≠ '_')) : Int))
  else none

/-- `int(v)`: `none` models a raised `TypeError`/`ValueError`. -/
def pyIntCoerce : Value → Option Int
  | vInt n => some n
  | vStr s => parsePyIntStr s
  | _ => none

/-- The decoded JSON body `_call_api` hands to `_extract_rows`: a dict
    carrying an `items` list of row dicts (every insights/mcp list
    endpoint), a dict with no such list (unwrapped into one row), a bare
    list of row dicts, or a scalar (e.g. CSV text).  Rows hold the scalar
    columns; nested values inside a row are not represented (no plan step
    used by a claim reads them). -/
inductive FetchData where
  | withItems (rs : List Row) : FetchData
  | singleDict (r : Row) : FetchData
  | bareList (rs : List Row) : FetchData
  | scalar (v : Value) : FetchData

/-- `_extract_rows` from agent/routes.py: unwrap `{"items": [...]}`, pass
    a dict through as a single row, a list as-is, anything else to `[]`. -/
def extract_rows (data : FetchData) : List Row :=
  match data with
  | .withItems rs => rs
  | .singleDict r => [r]
  | .bareList rs => rs
  | .scalar _ => []

/-- One condition of `_apply_filter` against one row.  A numeric operator
    on a non-numeric row value makes the row non-matching; a numeric
    operator comparing a numeric row value against a non-numeric plan
    value raises (`TypeError`), which `_apply_filter` does not catch;
    `in` catches every error as non-matching. -/
def condOk (r : Row) (c : FilterCond) : Except String Bool :=
  let val := rowGet r c.field
  if c.op = "=" then .ok (vEq val c.value)
  else if c.op = "!=" then .ok (!vEq val c.value)
  else if c.op = ">" || c.op = ">=" || c.op = "<" || c.op = "<=" then
    match val with
    | vInt a =>
        match c.value with
        | vInt b =>
            .ok (if c.op = ">" then b < a
              else if c.op = ">=" then b ≤ a
              else if c.op = "<" then a < b
              else a ≤ b)
        | _ => .error "TypeError"
    | _ => .ok false
  else if c.op = "contains" then
    match c.value with
    | vNull => .ok false
    | cv => .ok (subOccurs (pyLower (pyToString cv)).data
        (pyLower (orEmptyStr val)).data)
  else if c.op = "in" then
    match c.value with
    | vStrList xs =>
        match val with
        | vStr v => .ok (xs.any (fun x => x = v))
        | _ => .ok false
    | vStr s =>
        match val with
        | vStr v => .ok (subOccurs v.data s.data)
        | _ => .ok false
    | _ => .ok false
  else .ok true

/-- The conjunction over a row (`ok` in `_apply_filter`): first failing
    condition wins, evaluated left to right. -/
def rowOk (r : Row) : List FilterCond → Except String Bool
  | [] => .ok true
  | c :: cs => do
      let b ← condOk r c
      if b then rowOk r cs else .ok false

/-- `_apply_filter`. -/
def apply_filter : List Row → List FilterCond → Except String (List Row)
  | [], _ => .ok []
  | r :: rs, conds => do
      let b ← rowOk r conds
      let rest ← apply_filter rs conds
      .ok (if b then r :: rest else rest)

/-- `_apply_select`: project to the named columns, absent fields become
    `None`. -/
def apply_select (rows : List Row) (cols : List String) : List Row :=
  rows.map (fun r => cols.foldl (fun acc k => dictSet acc k (rowGet r k)) [])

/-- Sort-key encoding of `(x.get(field) is None, x.get(field))`: the
    `None` flag leads; present values order by type rank then payload.
    (Python raises on cross-type comparisons; the sort theorems restrict
    to columns that are homogeneous, where this encoding coincides with
    Python's comparisons.) -/
def valEnc : Value → List Int
  | vNull => [1]
  | vInt n => [0, 0, n]
  | vStr s => 0 :: 1 :: s.data.map (fun c => (c.toNat : Int))
  | vStrList _ => [0, 2]

/-- `_apply_sort`: stable sort by `(value is None, value)`, direction
    flipped when `order = "desc"`. -/
def apply_sort (rows : List Row) (spec : SortSpec) : List Row :=
  if spec.order = "desc" then
    sortByKeyDesc (fun r => valEnc (rowGet r spec.by_)) rows
  else
    sortByKey (fun r => valEnc (rowGet r spec.by_)) rows

/-- `_apply_top`: `rows[:n]`. -/
def apply_top (rows : List Row) (n : Nat) : List Row := rows.take n

/-- Value-keyed ordered-dict upsert (the `buckets` dict of
    `_apply_group`). -/
def vAssocSet (d : List (Value × Nat × Int)) (k : Value) (v : Nat × Int) :
    List (Value × Nat × Int) :=
  match d with
  | [] => [(k, v)]
  | (k', v') :: rest =>
      if vEq k' k then (k, v) :: rest else (k', v') :: vAssocSet rest k v

/-- Value-keyed lookup with `==` semantics. -/
def vAssocGet (d : List (Value × Nat × Int)) (k : Value) : Option (Nat × Int) :=
  match d with
  | [] => none
  | (k', v') :: rest => if vEq k' k then some v' else vAssocGet rest k

/-- `_apply_group`: bucket rows by `r.get(by, "Unknown")`, count per
    bucket, sum `int(r.get(field) or 0)` when `agg = "sum"` (a failing
    coercion is swallowed and contributes nothing); emit
    `{group, count, sum}` rows sorted descending by the aggregate. -/
def apply_group (rows : List Row) (spec : GroupSpec) : List Row :=
  let fld := if optTruthy spec.field then spec.field.getD "" else "ARR"
  let buckets := rows.foldl
    (fun buckets r =>
      let g := rowGetD r spec.by_ (vStr "Unknown")
      let cur := (vAssocGet buckets g).getD (0, 0)
      let newSum :=
        if spec.agg = "sum" then
          let v := rowGet r fld
          match (if truthy v then pyIntCoerce v else some 0) with
          | some n => cur.2 + n
          | none => cur.2
        else cur.2
      vAssocSet buckets g (cur.1 + 1, newSum))
    []
  let out := buckets.map (fun b =>
    ([("group", b.1), ("count", vInt b.2.1), ("sum", vInt b.2.2)] : Row))
  sortByKeyDesc
    (fun r : Row =>
      match rowGet r (if spec.agg = "sum" then "sum" else "count") with
      | vInt n => [n]
      | _ => [0])
    out

/-- A fetch oracle: the behaviour of `_call_api` (network call plus JSON
    decode), abstract because the HTTP collaborators are external.  An
    `HErr` is the `HTTPException` `_call_api` raises on failure. -/
abbrev FetchApi := String → Row → Except HErr FetchData

/-- `execute_plan` from agent/routes.py: run the steps in order over the
    current rows, recording `(endpoint, params)` fetch traces.  The
    `unknown op` 400 branch is unreachable: `PlanStep.op` is validated
    against the `StepOp` literal by the pydantic model. -/
def execute_plan (api : FetchApi) (plan : Plan) :
    Except ExecErr (List Row × List (String × Row)) :=
  plan.steps.foldlM
    (fun state step => do
      let (rows, fetches) := state
      match step.op with
      | .fetch =>
          match step.fetch with
          | none => .error (.http ⟨400, "fetch step missing args"⟩)
          | some fa =>
              let params := dictMerge (default_params_for fa.endpoint) fa.params
              match api fa.endpoint params with
              | .ok data =>
                  .ok (extract_rows data, fetches ++ [(fa.endpoint, params)])
              | .error e => .error (.http e)
      | .filter =>
          match step.filter with
          | none => .ok (rows, fetches)
          | some [] => .ok (rows, fetches)
          | some conds =>
              match apply_filter rows conds with
              | .ok rows' => .ok (rows', fetches)
              | .error msg => .error (.py msg)
      | .select =>
          match step.select with
          | none => .ok (rows, fetches)
          | some [] => .ok (rows, fetches)
          | some cols => .ok (apply_select rows cols, fetches)
      | .sort =>
          match step.sort with
          | none => .ok (rows, fetches)
          | some sp => .ok (apply_sort rows sp, fetches)
      | .top =>
          match step.top with
          | none => .ok (rows, fetches)
          | some n => .ok (if n = 0 then rows else apply_top rows n, fetches)
      | .group =>
          match step.group with
          | none => .ok (rows, fetches)
          | some g => .ok (apply_group rows g, fetches)
      | .summarize => .ok (rows, fetches))
    ([], [])

/- ---------------------------------------------------------------------
   src/agent/routes.py: answer rendering and the /agent/query endpoint.
   --------------------------------------------------------------------- -/

/-- Non-overlapping left-to-right replacement on character lists, fuelled
    by the input length (Python `str.replace` for a non-empty pattern). -/
def replaceFuel : Nat → List Char → List Char → List Char → List Char
  | 0, s, _, _ => s
  | fuel + 1, s, pat, rep =>
      match s with
      | [] => []
      | c :: cs =>
          if pat.isPrefixOf (c :: cs) && !pat.isEmpty then
            rep ++ replaceFuel fuel ((c :: cs).drop pat.length) pat rep
          else c :: replaceFuel fuel cs pat rep

/-- Python `out.replace(pat, rep)` (patterns here are the non-empty
    `{{key}}` placeholders). -/
def pyReplace (s pat rep : String) : String :=
  String.mk (replaceFuel (s.data.length + 1) s.data pat.data rep.data)

/-- The fixed numeric field list of `render_answer`. -/
def SUM_FIELDS : List String :=
  ["ARR", "OpenIssues", "OpenP1Issues", "OpenP2Issues", "OpenP3Issues",
   "total_open", "accounts_with_open"]

/-- `sum(int(r.get(field) or 0) for r in rows)`: falsy values contribute
    0; a truthy value that `int()` cannot coerce makes the whole sum
    raise (`none`), which `render_answer` catches by omitting the key. -/
def sum_field (rows : List Row) (field : String) : Option Int :=
  match rows with
  | [] => some 0
  | r :: rs => do
      let v := rowGet r field
      let c ← if truthy v then pyIntCoerce v else some 0
      let rest ← sum_field rs field
      some (c + rest)

/-- The substitution context built by `render_answer` (insertion order:
    `count`, non-null context entries, then the `sum_<field>` keys that
    survive their `try`). -/
def answerContext (rows : List Row) (context : Option Row) : Row :=
  let kv : Row := [("count", vInt rows.length)]
  let kv := match context with
    | none => kv
    | some ctx =>
        ctx.foldl (fun acc p =>
          match p.2 with
          | vNull => acc
          | v => dictSet acc p.1 v) kv
  SUM_FIELDS.foldl
    (fun acc f =>
      match sum_field rows f with
      | some n => dictSet acc ("sum_" ++ f) (vInt n)
      | none => acc)
    kv

/-- `render_answer` from agent/routes.py: without a template, a canned
    count message; with one, replace each `{{key}}` of the context
    textually (unresolved placeholders stay verbatim). -/
def render_answer (template : Option String) (rows : List Row)
    (context : Option Row) : String :=
  if !optTruthy template then
    if rows.isEmpty then "No matching accounts found."
    else
      "Found " ++ toString rows.length ++ " result(s). Showing " ++
        toString (min 3 rows.length) ++ " sample row(s)."
  else
    (answerContext rows context).foldl
      (fun out p =>
        pyReplace out ("\x7b\x7b" ++ p.1 ++ "\x7d\x7d") (pyToString p.2))
      (template.getD "")

/-- `_first_fetch_context`: priority and group_by parameters of the first
    fetch step, when present. -/
def first_fetch_context (plan : Plan) : Row :=
  match plan.steps.findSome? (fun s =>
    if s.op = StepOp.fetch then s.fetch else none) with
  | some fa =>
      let p := fa.params
      (if (p.lookup "priority").isSome then
        [("priority", rowGet p "priority")] else []) ++
      (if (p.lookup "group_by").isSome then
        [("group_by", rowGet p "group_by")] else [])
  | none => []

/-- A CSV cell per `csv.DictWriter` defaults: stringified, quoted (with
    doubled quotes) when it contains a delimiter, quote or newline;
    missing keys become the empty `restval`. -/
def csvCell (v : Option Value) : String :=
  match v with
  | none => ""
  | some x =>
      let s := pyToString x
      if s.data.any (fun c => c = ',' || c = '"' || c = '\n' || c = '\x0d') then
        "\"" ++ String.mk (s.data.foldr
          (fun c acc => if c = '"' then '"' :: '"' :: acc else c :: acc) []) ++
          "\""
      else s

/-- `_rows_to_csv`: header = union of row keys, then one line per row.
    (Python derives the header order from a set, which is unspecified;
    modelled as first-occurrence order.  `DictWriter` ends lines with
    CRLF.) -/
def rows_to_csv (rows : List Row) : String :=
  if rows.isEmpty then ""
  else
    let fields := (rows.foldl (fun acc r => acc ++ r.map (·.1)) []).dedup
    let line := fun (cells : List String) =>
      String.intercalate "," cells ++ "\x0d\n"
    line fields ++
      String.join (rows.map (fun r =>
        line (fields.map (fun f => csvCell (r.lookup f)))))

/-- The structured or CSV payload of an `/agent/query` response. -/
inductive AgentResult where
  | rows (rs : List Row) : AgentResult
  | csv (text : String) : AgentResult

/-- The `/agent/query` response body. -/
structure AgentResponse where
  query : String
  intent : String
  warnings : List String
  plan : Option Plan
  content_type : Option String
  answer : Option String
  result : AgentResult
  fetches : List (String × Row)

/-- The `except HTTPException: raise / except Exception as e: 500` block
    around each `execute_plan` call in `agent_query`. -/
def liftExec (r : Except ExecErr α) : Except HErr α :=
  match r with
  | .ok a => .ok a
  | .error (.http e) => .error e
  | .error (.py msg) => .error ⟨500, "Plan execution error: " ++ msg⟩

/-- The shared execute-and-respond tail of every `agent_query` branch
    that has a plan: run the plan, emit CSV when requested, otherwise
    render the answer over the given context. -/
def respondWithPlan (api : FetchApi) (q : String) (warnings : List String)
    (plan : Plan) (format : Option String) (ctx : Option Row) :
    Except HErr AgentResponse := do
  let (rows, fetches) ← liftExec (execute_plan api plan)
  if format = some "csv" || plan.intent = "csv" then
    .ok { query := q, intent := plan.intent, warnings := warnings,
          plan := some plan, content_type := some "text/csv", answer := none,
          result := .csv (rows_to_csv rows), fetches := fetches }
  else
    .ok { query := q, intent := plan.intent, warnings := warnings,
          plan := some plan, content_type := none,
          answer := some (render_answer plan.answer_template rows ctx),
          result := .rows rows, fetches := fetches }

/-- `agent_query` from agent/routes.py.  `api` abstracts `_call_api`;
    `geminiKey` is whether `GEMINI_API_KEY` is configured and `llmResult`
    the outcome of `call_gemini_plan` (consulted only when a key is set;
    `none` covers every swallowed failure).  Tiers in source order: the
    group-by guardrail, the account-ID guardrail, the show-all guardrail,
    then LLM/fallback planning with the empty plan rendered as the polite
    "I don't know" success. -/
def agent_query (api : FetchApi) (geminiKey : Bool) (llmResult : Option Plan)
    (qRaw : String) (format : Option String) : Except HErr AgentResponse :=
  let q := pyStrip qRaw
  if q = "" then .error ⟨400, "Empty query"⟩
  else if (groupbySearch q).isSome then
    let (gf, params, plan) := groupbyPlan q
    respondWithPlan api q [] plan format
      (some [("group_by", vStr gf),
             ("priority", rowGetD params "priority" (vStr "P1"))])
  else
    match accountIdFind q with
    | some tok =>
        let acc_id := pyUpper tok
        let params := default_params_for "/mcp/accounts"
        let plan : Plan :=
          { intent := "answer"
            steps := [fetchStep "/mcp/accounts" params,
                      filterStep [⟨"AccountID", "=", vStr acc_id⟩],
                      topStep 1]
            answer_template := none }
        respondWithPlan api q [] plan format none
    | none =>
        if showAllSearch q then
          let params := default_params_for "/mcp/accounts"
          let plan : Plan :=
            { intent := "answer"
              steps := [fetchStep "/mcp/accounts" params,
                        sortStep "ARR" "desc",
                        topStep (asNatD (rowGetD params "limit" (vInt 100)) 100)]
              answer_template := none }
          respondWithPlan api q [] plan format none
        else
          let planOpt := if geminiKey then llmResult else none
          let warnings := if geminiKey && llmResult.isNone then
              ["LLM planning failed. Fallback used."]
            else []
          let plan := planOpt.getD (fallback_plan q)
          if plan.steps.isEmpty then
            .ok { query := q, intent := "answer",
                  warnings := warnings ++ ["No valid plan could be generated."],
                  plan := none, content_type := none,
                  answer := some "Sorry, I don\x27t know how to answer that yet.",
                  result := .rows [], fetches := [] }
          else
            respondWithPlan api q warnings plan format
              (some (first_fetch_context plan))

/- Decidable equality for the embedded record types (used to evaluate the
   theorems' witnesses on concrete inputs). -/

deriving instance DecidableEq for SFRecord
deriving instance DecidableEq for NormalizedIssue
deriving instance DecidableEq for LinkedIssue
deriving instance DecidableEq for UnifiedAccount
deriving instance DecidableEq for Filters
deriving instance DecidableEq for FetchArgs
deriving instance DecidableEq for FilterCond
deriving instance DecidableEq for SortSpec
deriving instance DecidableEq for GroupSpec
deriving instance DecidableEq for PlanStep
deriving instance DecidableEq for Plan
deriving instance DecidableEq for FetchData
deriving instance DecidableEq for ExecErr
deriving instance DecidableEq for AgentResult
deriving instance DecidableEq for AgentResponse

instance [DecidableEq ε] [DecidableEq α] : DecidableEq (Except ε α) :=
  fun a b =>
    match a, b with
    | .ok x, .ok y =>
        if h : x = y then isTrue (by rw [h]) else
          isFalse (fun hc => h (by cases hc; rfl))
    | .error x, .error y =>
        if h : x = y then isTrue (by rw [h]) else
          isFalse (fun hc => h (by cases hc; rfl))
    | .ok _, .error _ => isFalse (fun hc => by cases hc)
    | .error _, .ok _ => isFalse (fun hc => by cases hc)

/-- Modelled from the spec for the refinement comparison of claim C7:
    "a token matching an account-ID shape (letter then ≥3 digits)" — any
    letter, word-bounded, followed by three or more digits.  The code's
    `ACCOUNT_ID_RE` (see `accountIdFind`) only accepts the letter `A`. -/
def spec_account_token (q : String) : Bool :=
  (firstMatchB
    (fun prev l =>
      match l with
      | c :: rest =>
          if atWordStart prev && c.isAlpha then
            let ds := rest.takeWhile isDigitChar
            if ds.length ≥ 3 && boundaryAfter (rest.drop ds.length) then
              some ()
            else none
          else none
      | [] => none)
    none q.data).isSome

/- ---------------------------------------------------------------------
   Concrete fixtures used by the witness and counterexample theorems.
   --------------------------------------------------------------------- -/

/-- A normalized account fixture. -/
def sfX : SFRecord :=
  ⟨some "A1", "Acme", vNull, some "APAC", some "Retail", some 100,
   some "2024-02-15", some "Closed Won", none⟩

/-- A normalized issue fixture (open P1 linked to epic E1). -/
def jiX : NormalizedIssue :=
  ⟨vStr "I1", "login crash", "Open", "P1", vNull, vNull, some "2024-01-05",
   none, vNull, some "E1", true⟩

/-- A raw issue row with an unrecognized priority (normalizes to P3). -/
def rawIssueW : Row :=
  [("IssueID", vStr "I1"), ("EpicLink", vStr "E1"),
   ("Status", vStr "open"), ("Priority", vStr "weird")]

/-- Default used only as the `getD` fallback of the fixtures below. -/
def defaultUA : UnifiedAccount :=
  ⟨"", "", none, none, none, none, none, 0, 0, 0, 0, none, []⟩

/-- The unified account produced from `sfX`/`jiX`. -/
def uW : UnifiedAccount := ((unify_accounts [sfX] [jiX]).1).getD 0 defaultUA

/-- The unified account produced from `sfX` and the normalization of
    `rawIssueW`. -/
def uW10 : UnifiedAccount :=
  ((unify_accounts [sfX] (normalize_jira [rawIssueW])).1).getD 0 defaultUA

/-- A unified-account fixture with linked issues (for the insights
    witnesses). -/
def acctX : UnifiedAccount :=
  { AccountID := "A1", AccountName := "Acme", ARR := some 100,
    RenewalDate := some "2024-02-15", Stage := some "Closed Won",
    Region := some "APAC", Industry := some "Retail", OpenIssues := 3,
    OpenP1Issues := 2, OpenP2Issues := 1, OpenP3Issues := 0,
    LastIssueDate := none,
    LinkedIssues := [⟨vStr "I1", "login crash", "P1", "Open", none, none, none⟩] }

/-- A second unified-account fixture. -/
def acctY : UnifiedAccount :=
  { AccountID := "A2", AccountName := "Beta", ARR := some 200,
    RenewalDate := none, Stage := none, Region := none, Industry := none,
    OpenIssues := 1, OpenP1Issues := 1, OpenP2Issues := 0, OpenP3Issues := 0,
    LastIssueDate := none, LinkedIssues := [] }

/-- A third fixture sharing `acctX`'s ARR (for tie-break witnesses). -/
def acctZ : UnifiedAccount :=
  { AccountID := "A3", AccountName := "Gamma", ARR := some 100,
    RenewalDate := none, Stage := none, Region := none, Industry := none,
    OpenIssues := 2, OpenP1Issues := 2, OpenP2Issues := 0, OpenP3Issues := 0,
    LastIssueDate := none, LinkedIssues := [] }

/-- Row fixtures for the executor sort theorems. -/
def rowOne : Row := [("x", vInt 1), ("id", vStr "r1")]

/-- A row with the sort field missing. -/
def rowNone : Row := [("id", vStr "r0")]

/-- A row with a larger sort value. -/
def rowTwo : Row := [("x", vInt 2), ("id", vStr "r2")]

/-- A duplicate-key row (stability witness). -/
def rowOneB : Row := [("x", vInt 1), ("id", vStr "r1b")]

/-- A fetch-oracle stub returning two unified rows for every endpoint. -/
def apiW : FetchApi := fun _ _ =>
  .ok (.withItems
    [[("AccountID", vStr "A1001"), ("ARR", vInt 5)],
     [("AccountID", vStr "A2222"), ("ARR", vInt 7)]])

/- ---------------------------------------------------------------------
   Helper lemmas: the lexicographic key order and stable sorting.
   --------------------------------------------------------------------- -/

theorem intListLe_refl (a : List Int) : intListLe a a = true := by
  induction a with
  | nil => rfl
  | cons x xs ih => simp [intListLe, ih]

theorem intListLe_total (a b : List Int) :
    intListLe a b = true ∨ intListLe b a = true := by
  induction a generalizing b with
  | nil => exact Or.inl rfl
  | cons x xs ih =>
      cases b with
      | nil => exact Or.inr rfl
      | cons y ys =>
          by_cases hxy : x < y
          · exact Or.inl (by simp [intListLe, hxy])
          · by_cases hyx : y < x
            · exact Or.inr (by simp [intListLe, hyx, hxy])
            · rcases ih ys with h | h
              · exact Or.inl (by simp [intListLe, hxy, hyx, h])
              · exact Or.inr (by simp [intListLe, hxy, hyx, h])

theorem intListLe_trans {a b c : List Int} (h1 : intListLe a b = true)
    (h2 : intListLe b c = true) : intListLe a c = true := by
  induction a generalizing b c with
  | nil => rfl
  | cons x xs ih =>
      cases b with
      | nil => simp [intListLe] at h1
      | cons y ys =>
          cases c with
          | nil => simp [intListLe] at h2
          | cons z zs =>
              simp only [intListLe] at h1 h2 ⊢
              by_cases hxy : x < y
              · by_cases hyz : y < z
                · simp [show x < z by omega]
                · by_cases hzy : z < y
                  · simp [hyz, hzy] at h2
                  · have hyzeq : y = z := by omega
                    subst hyzeq
                    simp [hxy]
              · by_cases hyx : y < x
                · simp [hxy, hyx] at h1
                · have hxyeq : x = y := by omega
                  subst hxyeq
                  simp [lt_irrefl] at h1
                  by_cases hxz : x < z
                  · simp [hxz]
                  · by_cases hzx : z < x
                    · simp [hxz, hzx] at h2
                    · have hxzeq : x = z := by omega
                      subst hxzeq
                      simp [lt_irrefl] at h2 ⊢
                      exact ih h1 h2

theorem intListLe_antisymm {a b : List Int} (h1 : intListLe a b = true)
    (h2 : intListLe b a = true) : a = b := by
  induction a generalizing b with
  | nil =>
      cases b with
      | nil => rfl
      | cons y ys => simp [intListLe] at h2
  | cons x xs ih =>
      cases b with
      | nil => simp [intListLe] at h1
      | cons y ys =>
          simp only [intListLe] at h1 h2
          by_cases hxy : x < y
          · have hnyx : ¬ y < x := by omega
            simp [hxy, hnyx] at h2
          · by_cases hyx : y < x
            · simp [hxy, hyx] at h1
            · have hxyeq : x = y := by omega
              subst hxyeq
              simp [lt_irrefl] at h1 h2
              rw [ih h1 h2]

theorem intListLe_singleton (a b : Int) :
    intListLe [a] [b] = true ↔ a ≤ b := by
  simp only [intListLe]
  by_cases h : a < b <;> by_cases h' : b < a <;> simp_all <;> omega

/-- Stability kernel: `orderedInsert` never moves `x` across an element
    equivalent to it, so filtering an equivalence class commutes. -/
theorem filter_orderedInsert_of_class {r : α → α → Prop} [DecidableRel r]
    (p : α → Bool) (hcl : ∀ a b, p a = true → p b = true → r a b)
    (x : α) (s : List α) :
    (List.orderedInsert r x s).filter p =
      if p x then x :: s.filter p else s.filter p := by
  induction s with
  | nil =>
      simp only [List.orderedInsert]
      by_cases hx : p x <;> simp [hx]
  | cons y ys ih =>
      simp only [List.orderedInsert]
      by_cases hr : r x y
      · rw [if_pos hr]
        by_cases hx : p x <;> simp [hx, List.filter_cons]
      · rw [if_neg hr, List.filter_cons, List.filter_cons]
        by_cases hy : p y
        · by_cases hx : p x
          · exact absurd (hcl x y hx hy) hr
          · simp [hx, hy, ih]
        · simp [hy, ih]

/-- Stability of `insertionSort`: the elements of one comparator
    equivalence class keep their relative order, i.e. filtering the class
    commutes with sorting. -/
theorem filter_insertionSort_of_class {r : α → α → Prop} [DecidableRel r]
    (p : α → Bool) (hcl : ∀ a b, p a = true → p b = true → r a b)
    (l : List α) :
    (List.insertionSort r l).filter p = l.filter p := by
  induction l with
  | nil => rfl
  | cons x xs ih =>
      show (List.orderedInsert r x (List.insertionSort r xs)).filter p = _
      rw [filter_orderedInsert_of_class p hcl]
      by_cases hx : p x <;> simp [hx, ih, List.filter_cons]

theorem sortByKey_perm (key : α → List Int) (l : List α) :
    (sortByKey key l).Perm l :=
  List.perm_insertionSort _ l

theorem sortByKeyDesc_perm (key : α → List Int) (l : List α) :
    (sortByKeyDesc key l).Perm l :=
  List.perm_insertionSort _ l

theorem sortByKey_sorted (key : α → List Int) (l : List α) :
    List.Sorted (fun a b => intListLe (key a) (key b) = true)
      (sortByKey key l) := by
  haveI : IsTotal α (fun a b => intListLe (key a) (key b) = true) :=
    ⟨fun a b => intListLe_total (key a) (key b)⟩
  haveI : IsTrans α (fun a b => intListLe (key a) (key b) = true) :=
    ⟨fun _ _ _ h1 h2 => intListLe_trans h1 h2⟩
  exact List.sorted_insertionSort _ l

theorem sortByKeyDesc_sorted (key : α → List Int) (l : List α) :
    List.Sorted (fun a b => intListLe (key b) (key a) = true)
      (sortByKeyDesc key l) := by
  haveI : IsTotal α (fun a b => intListLe (key b) (key a) = true) :=
    ⟨fun a b => intListLe_total (key b) (key a)⟩
  haveI : IsTrans α (fun a b => intListLe (key b) (key a) = true) :=
    ⟨fun _ _ _ h1 h2 => intListLe_trans h2 h1⟩
  exact List.sorted_insertionSort _ l

theorem sortByKey_filter_class (key : α → List Int) (l : List α)
    (k : List Int) :
    (sortByKey key l).filter (fun a => key a = k) =
      l.filter (fun a => key a = k) := by
  apply filter_insertionSort_of_class
  intro a b ha hb
  simp only [decide_eq_true_eq] at ha hb
  rw [ha, hb]
  exact intListLe_refl k

theorem sortByKeyDesc_filter_class (key : α → List Int) (l : List α)
    (k : List Int) :
    (sortByKeyDesc key l).filter (fun a => key a = k) =
      l.filter (fun a => key a = k) := by
  apply filter_insertionSort_of_class
  intro a b ha hb
  simp only [decide_eq_true_eq] at ha hb
  rw [ha, hb]
  exact intListLe_refl k

/-- A list sorted by a total preorder splits as "lower block ++ upper
    block" for any predicate no member of which may precede a
    non-member. -/
theorem sorted_partition {R : α → α → Prop} (p : α → Bool) {l : List α}
    (hs : List.Pairwise R l)
    (hblock : ∀ a b, p a = true → p b = false → ¬ R a b) :
    l = l.filter (fun a => !p a) ++ l.filter p := by
  induction l with
  | nil => rfl
  | cons x xs ih =>
      rcases List.pairwise_cons.mp hs with ⟨hx, hxs⟩
      by_cases hpx : p x
      · have hall : ∀ y ∈ xs, p y = true := by
          intro y hy
          by_contra hny
          exact hblock x y hpx (by simpa using hny) (hx y hy)
        have h1 : (x :: xs).filter (fun a => !p a) = [] := by
          apply List.filter_eq_nil_iff.mpr
          intro y hy
          rcases List.mem_cons.mp hy with hxy | hxy
          · subst hxy; simp [hpx]
          · simp [hall y hxy]
        have h2 : (x :: xs).filter p = x :: xs := by
          rw [List.filter_cons, if_pos hpx,
            List.filter_eq_self.mpr (fun y hy => hall y hy)]
        rw [h1, h2]
        rfl
      · have h1 : (x :: xs).filter (fun a => !p a) =
            x :: xs.filter (fun a => !p a) := by
          simp [List.filter_cons, hpx]
        have h2 : (x :: xs).filter p = xs.filter p := by
          simp [List.filter_cons, hpx]
        rw [h1, h2]
        simpa using congrArg (x :: ·) (ih hxs)

/- ---------------------------------------------------------------------
   Helper lemmas: the unifier's counting loop.
   --------------------------------------------------------------------- -/

theorem countOpenStep_le (a : Nat × Nat × Nat × Nat) (x : NormalizedIssue)
    (h : a.2.1 + a.2.2.1 + a.2.2.2 ≤ a.1) :
    (countOpenStep a x).2.1 + (countOpenStep a x).2.2.1 +
      (countOpenStep a x).2.2.2 ≤ (countOpenStep a x).1 := by
  rcases a with ⟨oi, p1, p2, p3⟩
  simp only [countOpenStep]
  by_cases ho : x.IsOpen
  · simp only [ho, if_true]
    split_ifs <;> simp_all <;> omega
  · simp only [ho]
    simp_all

theorem countOpen_fold_le (l : List NormalizedIssue)
    (a : Nat × Nat × Nat × Nat) (h : a.2.1 + a.2.2.1 + a.2.2.2 ≤ a.1) :
    (l.foldl countOpenStep a).2.1 + (l.foldl countOpenStep a).2.2.1 +
      (l.foldl countOpenStep a).2.2.2 ≤ (l.foldl countOpenStep a).1 := by
  induction l generalizing a with
  | nil => simpa using h
  | cons x xs ih => exact ih _ (countOpenStep_le a x h)

theorem countOpenStep_eq (a : Nat × Nat × Nat × Nat) (x : NormalizedIssue)
    (hx : x.Priority = "P1" ∨ x.Priority = "P2" ∨ x.Priority = "P3")
    (h : a.2.1 + a.2.2.1 + a.2.2.2 = a.1) :
    (countOpenStep a x).2.1 + (countOpenStep a x).2.2.1 +
      (countOpenStep a x).2.2.2 = (countOpenStep a x).1 := by
  rcases a with ⟨oi, p1, p2, p3⟩
  simp only [countOpenStep]
  by_cases ho : x.IsOpen
  · simp only [ho, if_true]
    split_ifs <;> simp_all <;> omega
  · simp only [ho]
    simp_all

theorem countOpen_fold_eq (l : List NormalizedIssue)
    (hl : ∀ x ∈ l, x.Priority = "P1" ∨ x.Priority = "P2" ∨ x.Priority = "P3")
    (a : Nat × Nat × Nat × Nat) (h : a.2.1 + a.2.2.1 + a.2.2.2 = a.1) :
    (l.foldl countOpenStep a).2.1 + (l.foldl countOpenStep a).2.2.1 +
      (l.foldl countOpenStep a).2.2.2 = (l.foldl countOpenStep a).1 := by
  induction l generalizing a with
  | nil => simpa using h
  | cons x xs ih =>
      exact ih (fun y hy => hl y (List.mem_cons_of_mem x hy)) _
        (countOpenStep_eq a x (hl x (List.mem_cons_self x xs)) h)

/-- Every normalized priority lands in one of the three buckets:
    `norm_priority` is total into `{P1, P2, P3}`. -/
theorem norm_priority_mem (p : Value) :
    norm_priority p = "P1" ∨ norm_priority p = "P2" ∨ norm_priority p = "P3" := by
  unfold norm_priority
  by_cases ht : truthy p
  · simp only [ht, Bool.not_true, if_neg]
    generalize pyStrip (pyLower (pyToString p)) = s
    simp only [PRIORITY_MAP, List.lookup]
    repeat' split <;> simp_all
  · simp [ht]

/-- The unified accounts are exactly the per-entry builds over `sfById`:
    membership gives the issues list that produced the rollups. -/
theorem unify_accounts_counts (sf : List SFRecord) (ji : List NormalizedIssue)
    (u : UnifiedAccount) (hu : u ∈ (unify_accounts sf ji).1) :
    ∃ issues : List NormalizedIssue,
      (∀ i ∈ issues, i ∈ ji) ∧
      u.OpenIssues = (countOpen issues).1 ∧
      u.OpenP1Issues = (countOpen issues).2.1 ∧
      u.OpenP2Issues = (countOpen issues).2.2.1 ∧
      u.OpenP3Issues = (countOpen issues).2.2.2 := by
  unfold unify_accounts at hu
  simp only [List.mem_map] at hu
  rcases hu with ⟨⟨acc_id, acc⟩, _, hbuild⟩
  refine ⟨ji.filter (fun i =>
    issueAccount (build_epic_to_account_map sf ji)
      ((sfById sf).map (·.1)) i = some acc_id), ?_, ?_⟩
  · intro i hi
    exact (List.mem_filter.mp hi).1
  · rcases hcnt : countOpen (ji.filter (fun i =>
      issueAccount (build_epic_to_account_map sf ji)
        ((sfById sf).map (·.1)) i = some acc_id)) with ⟨oi, p1, p2, p3⟩
    rw [← hbuild]
    simp [hcnt]

/- ---------------------------------------------------------------------
   Claim C1
   --------------------------------------------------------------------- -/

/-- C1: the claim says a lookup of an AccountID that is not in the
    unified list fails with NotFound (HTTP 404).  The code intends this —
    it raises `HTTPException(404, "Account not found")` — but the raise
    happens inside the `try`, whose blanket `except Exception` catches
    the `HTTPException` subclass and re-raises it as HTTP 500 with detail
    `str(e) = "404: Account not found"`.  This theorem evaluates the code
    path: every miss produces the 500, not a 404. -/
theorem C1_lookup_miss_is_500 (sf_raw ji_raw : List Row) (account_id : String)
    (h : ∀ a ∈ (unify_accounts (normalize_salesforce sf_raw)
        (normalize_jira ji_raw)).1, a.AccountID ≠ account_id) :
    get_account sf_raw ji_raw account_id =
      .error ⟨500, "404: Account not found"⟩ := by
  rcases hu : unify_accounts (normalize_salesforce sf_raw)
    (normalize_jira ji_raw) with ⟨unified, orphans, em⟩
  have hmem : ∀ a ∈ unified, a.AccountID ≠ account_id := by
    intro a ha
    exact h a (by rw [hu]; exact ha)
  have hfind : unified.find? (fun a => a.AccountID = account_id) = none := by
    apply List.find?_eq_none.mpr
    intro a ha
    simpa using hmem a ha
  simp only [get_account, get_account_body, catchAllTo500, hu, hfind,
    strOfHErr]
  rfl

/-- C1 witness: the empty dataset and a concrete AccountID. -/
theorem C1_lookup_miss_is_500_witness :
    (∀ a ∈ (unify_accounts (normalize_salesforce [])
        (normalize_jira [])).1, a.AccountID ≠ "A1001") ∧
    get_account [] [] "A1001" = .error ⟨500, "404: Account not found"⟩ :=
  ⟨by decide, C1_lookup_miss_is_500 [] [] "A1001" (by decide)⟩

/- ---------------------------------------------------------------------
   Claim C4
   --------------------------------------------------------------------- -/

/-- C4: for every unified account produced by the unifier,
    OpenP1Issues + OpenP2Issues + OpenP3Issues ≤ OpenIssues — the
    counting loop increments at most one priority bucket per open
    issue. -/
theorem C4_priority_sum_le_open (sf : List SFRecord)
    (ji : List NormalizedIssue) (u : UnifiedAccount)
    (hu : u ∈ (unify_accounts sf ji).1) :
    u.OpenP1Issues + u.OpenP2Issues + u.OpenP3Issues ≤ u.OpenIssues := by
  rcases unify_accounts_counts sf ji u hu with ⟨issues, _, h0, h1, h2, h3⟩
  rw [h0, h1, h2, h3]
  simpa [countOpen] using
    countOpen_fold_le issues (0, 0, 0, 0) (by simp)

/-- C4 witness: the account unified from `sfX`/`jiX`. -/
theorem C4_priority_sum_le_open_witness :
    uW ∈ (unify_accounts [sfX] [jiX]).1 ∧
    uW.OpenP1Issues + uW.OpenP2Issues + uW.OpenP3Issues ≤ uW.OpenIssues :=
  ⟨by decide, C4_priority_sum_le_open [sfX] [jiX] uW (by decide)⟩

/- ---------------------------------------------------------------------
   Claim C10
   --------------------------------------------------------------------- -/

/-- C10: for accounts unified from issues that went through
    `normalize_jira`, the three buckets sum exactly to OpenIssues:
    `norm_priority` is total into {P1, P2, P3} (unrecognized and absent
    priorities default to P3), so every open linked issue falls into
    exactly one bucket. -/
theorem C10_priority_sum_eq_open (sf : List SFRecord) (ji_raw : List Row)
    (u : UnifiedAccount)
    (hu : u ∈ (unify_accounts sf (normalize_jira ji_raw)).1) :
    u.OpenP1Issues + u.OpenP2Issues + u.OpenP3Issues = u.OpenIssues := by
  rcases unify_accounts_counts sf (normalize_jira ji_raw) u hu with
    ⟨issues, hsub, h0, h1, h2, h3⟩
  rw [h0, h1, h2, h3]
  have hpr : ∀ x ∈ issues,
      x.Priority = "P1" ∨ x.Priority = "P2" ∨ x.Priority = "P3" := by
    intro x hx
    have hxji := hsub x hx
    simp only [normalize_jira, List.mem_map] at hxji
    rcases hxji with ⟨r, _, hr⟩
    rw [← hr]
    exact norm_priority_mem (rowGet r "Priority")
  simpa [countOpen] using countOpen_fold_eq issues hpr (0, 0, 0, 0) (by simp)

/-- C10 witness: an issue whose raw priority "weird" normalizes to P3 and
    is counted in exactly one bucket. -/
theorem C10_priority_sum_eq_open_witness :
    uW10 ∈ (unify_accounts [sfX] (normalize_jira [rawIssueW])).1 ∧
    uW10.OpenP1Issues + uW10.OpenP2Issues + uW10.OpenP3Issues =
      uW10.OpenIssues :=
  ⟨by decide,
   C10_priority_sum_eq_open [sfX] [rawIssueW] uW10 (by decide)⟩

/- ---------------------------------------------------------------------
   Claim C3
   --------------------------------------------------------------------- -/

theorem valEnc_of_ne_null (v : Value) (h : v ≠ vNull) :
    ∃ t, valEnc v = 0 :: t := by
  cases v with
  | vNull => exact absurd rfl h
  | vInt n => exact ⟨[0, n], rfl⟩
  | vStr s => exact ⟨_, rfl⟩
  | vStrList xs => exact ⟨[2], rfl⟩

theorem intListLe_one_zero (t : List Int) :
    intListLe [1] (0 :: t) = false := by
  simp [intListLe]

/-- C3 counterexample: the claim places null/missing sort values before
    present ones for both directions, but for `order = asc` the key
    `(value is None, value)` sorts the null row after the present row. -/
theorem C3_counterexample :
    apply_sort [rowOne, rowNone] ⟨"x", "asc"⟩ = [rowOne, rowNone] ∧
    rowGet rowNone "x" = vNull ∧ rowGet rowOne "x" = vInt 1 := by
  decide

/-- C3 as amended: for every row list whose sort column is integer or
    null (the domain on which Python's comparisons are defined), the sort
    is a stable permutation, and rows with a null/missing field sort as
    the largest key: after all present values for `order = asc`, before
    them for `order = desc`. -/
theorem C3_sort_stable_null_placement (rows : List Row) (field : String)
    (_h : ∀ r ∈ rows, rowGet r field = vNull ∨ ∃ n, rowGet r field = vInt n) :
    (∀ ord, (apply_sort rows ⟨field, ord⟩).Perm rows) ∧
    (∀ ord k, (apply_sort rows ⟨field, ord⟩).filter
        (fun r => valEnc (rowGet r field) = k) =
      rows.filter (fun r => valEnc (rowGet r field) = k)) ∧
    (apply_sort rows ⟨field, "asc"⟩ =
      (apply_sort rows ⟨field, "asc"⟩).filter
          (fun r => !(rowGet r field == vNull)) ++
        (apply_sort rows ⟨field, "asc"⟩).filter
          (fun r => rowGet r field == vNull)) ∧
    (apply_sort rows ⟨field, "desc"⟩ =
      (apply_sort rows ⟨field, "desc"⟩).filter
          (fun r => rowGet r field == vNull) ++
        (apply_sort rows ⟨field, "desc"⟩).filter
          (fun r => !(rowGet r field == vNull))) := by
  refine ⟨?_, ?_, ?_, ?_⟩
  · intro ord
    by_cases hord : ord = "desc" <;>
      simp [apply_sort, hord, sortByKey_perm, sortByKeyDesc_perm]
  · intro ord k
    by_cases hord : ord = "desc"
    · simpa [apply_sort, hord] using sortByKeyDesc_filter_class
        (fun r => valEnc (rowGet r field)) rows k
    · simpa [apply_sort, hord] using sortByKey_filter_class
        (fun r => valEnc (rowGet r field)) rows k
  · have hs := sortByKey_sorted (fun r : Row => valEnc (rowGet r field)) rows
    have : apply_sort rows ⟨field, "asc"⟩ =
        sortByKey (fun r : Row => valEnc (rowGet r field)) rows := by
      simp [apply_sort]
    rw [this]
    apply sorted_partition (fun r => rowGet r field == vNull) hs
    intro a b ha hb
    have ha' : rowGet a field = vNull := by simpa using ha
    have hb' : rowGet b field ≠ vNull := by simpa using hb
    rcases valEnc_of_ne_null _ hb' with ⟨t, ht⟩
    rw [ha', ht]
    simp [valEnc, intListLe_one_zero]
  · have hs := sortByKeyDesc_sorted (fun r : Row => valEnc (rowGet r field)) rows
    have : apply_sort rows ⟨field, "desc"⟩ =
        sortByKeyDesc (fun r : Row => valEnc (rowGet r field)) rows := by
      simp [apply_sort]
    rw [this]
    have hpart := sorted_partition (fun r => !(rowGet r field == vNull)) hs
      (by
        intro a b ha hb
        have ha' : rowGet a field ≠ vNull := by simpa using ha
        have hb' : rowGet b field = vNull := by simpa using hb
        rcases valEnc_of_ne_null _ ha' with ⟨t, ht⟩
        rw [hb', ht]
        simp [valEnc, intListLe_one_zero])
    simpa using hpart

/-- C3 witness: a present-value row and a missing-value row under
    `order = asc`: the null row ends up last. -/
theorem C3_sort_stable_null_placement_witness :
    (∀ r ∈ [rowOne, rowNone],
      rowGet r "x" = vNull ∨ ∃ n, rowGet r "x" = vInt n) ∧
    (apply_sort [rowOne, rowNone] ⟨"x", "asc"⟩ =
      (apply_sort [rowOne, rowNone] ⟨"x", "asc"⟩).filter
          (fun r => !(rowGet r "x" == vNull)) ++
        (apply_sort [rowOne, rowNone] ⟨"x", "asc"⟩).filter
          (fun r => rowGet r "x" == vNull)) := by
  have hdom : ∀ r ∈ [rowOne, rowNone],
      rowGet r "x" = vNull ∨ ∃ n, rowGet r "x" = vInt n := by
    intro r hr
    rcases List.mem_cons.mp hr with h1 | h1
    · subst h1
      exact Or.inr ⟨1, by decide⟩
    · rcases List.mem_cons.mp h1 with h2 | h2
      · subst h2
        exact Or.inl (by decide)
      · simp at h2
  exact ⟨hdom,
    (C3_sort_stable_null_placement [rowOne, rowNone] "x" hdom).2.2.1⟩

/- ---------------------------------------------------------------------
   Claim C2
   --------------------------------------------------------------------- -/

theorem open_key_for_bad (priority : String)
    (h1 : pyUpper priority ≠ "P1") (h2 : pyUpper priority ≠ "P2")
    (h3 : pyUpper priority ≠ "P3") :
    open_key_for priority =
      .error ⟨400, "priority must be one of P1, P2, P3"⟩ := by
  simp [open_key_for, h1, h2, h3]

theorem open_count_not_bug_bad (a : UnifiedAccount) (priority : String)
    (it : Option String)
    (hnb : ¬(optTruthy it = true ∧ pyLower (it.getD "") = "bug"))
    (h1 : pyUpper priority ≠ "P1") (h2 : pyUpper priority ≠ "P2")
    (h3 : pyUpper priority ≠ "P3") :
    open_count_for_account a priority it =
      .error ⟨400, "priority must be one of P1, P2, P3"⟩ := by
  have hcond : (optTruthy it && pyLower (it.getD "") = "bug") = false := by
    by_cases ht : optTruthy it = true
    · by_cases hb : pyLower (it.getD "") = "bug"
      · exact absurd ⟨ht, hb⟩ hnb
      · simp [ht, hb]
    · rw [Bool.not_eq_true] at ht
      simp [ht]
  simp [open_count_for_account, hcond, open_key_for_bad priority h1 h2 h3,
    Except.map]

theorem groupByStep_bug_ok (priority : String) (it : String) (f : Filters)
    (dim : String) (hne : it ≠ "") (hbug : pyLower it = "bug")
    (buckets : List (String × Nat × Nat)) (a : UnifiedAccount) :
    ∃ b, groupByStep priority (some it) f dim buckets a = .ok b := by
  have hcond : (optTruthy (some it) && pyLower ((some it).getD "") = "bug")
      = true := by
    simp [optTruthy, hne, hbug]
  unfold groupByStep
  by_cases hp : passes_filters a f
  · simp only [hp, Bool.not_true, Bool.false_eq_true, if_false,
      open_count_for_account, hcond, if_true, Bind.bind, Except.bind]
    split
    · exact ⟨_, rfl⟩
    · exact ⟨_, rfl⟩
  · simp only [Bool.not_eq_true] at hp
    refine ⟨buckets, ?_⟩
    simp only [hp, Bool.not_false, if_true]
    rfl

theorem groupByFold_bug_ok (accounts : List UnifiedAccount)
    (priority : String) (it : String) (f : Filters) (dim : String)
    (hne : it ≠ "") (hbug : pyLower it = "bug") :
    ∀ init, ∃ b,
      accounts.foldlM (groupByStep priority (some it) f dim) init = .ok b := by
  induction accounts with
  | nil => exact fun init => ⟨init, rfl⟩
  | cons a rest ih =>
      intro init
      rcases groupByStep_bug_ok priority it f dim hne hbug init a with ⟨b, hb⟩
      rcases ih b with ⟨b', hb'⟩
      refine ⟨b', ?_⟩
      simp only [List.foldlM_cons, hb]
      exact hb'

theorem groupByFold_bad_priority (accounts : List UnifiedAccount)
    (priority : String) (it : Option String) (f : Filters) (dim : String)
    (hnb : ¬(optTruthy it = true ∧ pyLower (it.getD "") = "bug"))
    (h1 : pyUpper priority ≠ "P1") (h2 : pyUpper priority ≠ "P2")
    (h3 : pyUpper priority ≠ "P3")
    (hpass : ∃ a ∈ accounts, passes_filters a f = true) :
    ∀ init, accounts.foldlM (groupByStep priority it f dim) init =
      .error ⟨400, "priority must be one of P1, P2, P3"⟩ := by
  induction accounts with
  | nil => simp at hpass
  | cons a rest ih =>
      intro init
      rcases hpass with ⟨x, hx, hxp⟩
      rcases List.mem_cons.mp hx with hxa | hxr
      · subst hxa
        have hstep : groupByStep priority it f dim init x =
            .error ⟨400, "priority must be one of P1, P2, P3"⟩ := by
          unfold groupByStep
          simp [hxp, open_count_not_bug_bad x priority it hnb h1 h2 h3,
            Bind.bind, Except.bind]
        simp only [List.foldlM_cons, hstep]
        rfl
      · by_cases hap : passes_filters a f
        · have hstep : groupByStep priority it f dim init a =
              .error ⟨400, "priority must be one of P1, P2, P3"⟩ := by
            unfold groupByStep
            simp [hap, open_count_not_bug_bad a priority it hnb h1 h2 h3,
              Bind.bind, Except.bind]
          simp only [List.foldlM_cons, hstep]
          rfl
        · have hstep : groupByStep priority it f dim init a = .ok init := by
            unfold groupByStep
            simp only [Bool.not_eq_true] at hap
            simp only [hap, Bool.not_false, if_true]
            rfl
          simp only [List.foldlM_cons, hstep]
          exact ih ⟨x, hxr, hxp⟩ init

/-- C2 as amended: an invalid priority (outside {P1, P2, P3} after
    upper-casing) makes top-revenue, renewals-with and
    accounts-with-critical fail with InvalidArgument (HTTP 400)
    unconditionally (summary takes no priority argument at all); group-by
    validates the priority only when it reads the precomputed counter, so
    it fails with the 400 when issue_type is not "bug" and at least one
    account passes the filters, but with issue_type = "bug" it accepts
    any priority and succeeds. -/
theorem C2_priority_validation (priority : String)
    (hbad : pyUpper priority ∉ (["P1", "P2", "P3"] : List String)) :
    (∀ accounts limit f, top_revenue accounts priority limit f =
      .error ⟨400, "priority must be one of P1, P2, P3"⟩) ∧
    (∀ accounts days today utcnow limit f,
      renewals_with accounts priority days today utcnow limit f =
        .error ⟨400, "priority must be one of P1, P2, P3"⟩) ∧
    (∀ accounts minA maxA limit f,
      accounts_with_critical accounts minA maxA priority limit f =
        .error ⟨400, "priority must be one of P1, P2, P3"⟩) ∧
    (∀ accounts f dim (it : String),
      dim ∈ (["region", "stage", "industry"] : List String) → it ≠ "" →
      pyLower it = "bug" →
      (group_by accounts priority dim (some it) f).isOk = true) ∧
    (∀ accounts f dim (it : Option String),
      dim ∈ (["region", "stage", "industry"] : List String) →
      ¬(optTruthy it = true ∧ pyLower (it.getD "") = "bug") →
      (∃ a ∈ accounts, passes_filters a f = true) →
      group_by accounts priority dim it f =
        .error ⟨400, "priority must be one of P1, P2, P3"⟩) := by
  have h1 : pyUpper priority ≠ "P1" := fun hc => hbad (by simp [hc])
  have h2 : pyUpper priority ≠ "P2" := fun hc => hbad (by simp [hc])
  have h3 : pyUpper priority ≠ "P3" := fun hc => hbad (by simp [hc])
  have hkey := open_key_for_bad priority h1 h2 h3
  refine ⟨?_, ?_, ?_, ?_, ?_⟩
  · intro accounts limit f
    simp [top_revenue, hkey, Bind.bind, Except.bind]
  · intro accounts days today utcnow limit f
    simp [renewals_with, hkey, Bind.bind, Except.bind]
  · intro accounts minA maxA limit f
    simp [accounts_with_critical, hkey, Bind.bind, Except.bind]
  · intro accounts f dim it hdim hne hbug
    have hd1 : dim = "region" ∨ dim = "stage" ∨ dim = "industry" := by
      simpa using hdim
    rcases hd1 with h | h | h
    · subst h
      rcases groupByFold_bug_ok accounts priority it f (pyLower "region")
        hne hbug [] with ⟨b, hb⟩
      unfold group_by
      simp [groupByFold, hb, Except.isOk, Except.toBool]
      rfl
    · subst h
      rcases groupByFold_bug_ok accounts priority it f (pyLower "stage")
        hne hbug [] with ⟨b, hb⟩
      unfold group_by
      simp [groupByFold, hb, Except.isOk, Except.toBool]
      rfl
    · subst h
      rcases groupByFold_bug_ok accounts priority it f (pyLower "industry")
        hne hbug [] with ⟨b, hb⟩
      unfold group_by
      simp [groupByFold, hb, Except.isOk, Except.toBool]
      rfl
  · intro accounts f dim it hdim hnb hpass
    have hd1 : dim = "region" ∨ dim = "stage" ∨ dim = "industry" := by
      simpa using hdim
    rcases hd1 with h | h | h
    · subst h
      have hfold := groupByFold_bad_priority accounts priority it f
        (pyLower "region") hnb h1 h2 h3 hpass []
      unfold group_by
      simp [groupByFold, hfold]
      rfl
    · subst h
      have hfold := groupByFold_bad_priority accounts priority it f
        (pyLower "stage") hnb h1 h2 h3 hpass []
      unfold group_by
      simp [groupByFold, hfold]
      rfl
    · subst h
      have hfold := groupByFold_bad_priority accounts priority it f
        (pyLower "industry") hnb h1 h2 h3 hpass []
      unfold group_by
      simp [groupByFold, hfold]
      rfl

/-- C2 counterexample: the claim as stated requires group-by to fail with
    InvalidArgument for every issue_type, including "bug"; but with
    issue_type = "bug" the bad priority "BOGUS" is accepted and the call
    succeeds (counting zero issues at that priority). -/
theorem C2_counterexample :
    group_by [acctX] "BOGUS" "region" (some "bug") {} =
      .ok { priority := "BOGUS", group_by := "region", count := 0,
            items := [] } := by
  decide

/-- C2 witness: the concrete priority "BOGUS" against the fixture
    account: the three list endpoints reject it, group-by rejects it for
    issue_type = none, and group-by accepts it for issue_type = "bug". -/
theorem C2_priority_validation_witness :
    pyUpper "BOGUS" ∉ (["P1", "P2", "P3"] : List String) ∧
    top_revenue [acctX] "BOGUS" 10 {} =
      .error ⟨400, "priority must be one of P1, P2, P3"⟩ ∧
    renewals_with [acctX] "BOGUS" 60 none ⟨2024, 1, 1⟩ 100 {} =
      .error ⟨400, "priority must be one of P1, P2, P3"⟩ ∧
    accounts_with_critical [acctX] 3 none "BOGUS" 10 {} =
      .error ⟨400, "priority must be one of P1, P2, P3"⟩ ∧
    group_by [acctX] "BOGUS" "region" none {} =
      .error ⟨400, "priority must be one of P1, P2, P3"⟩ ∧
    (match group_by [acctX] "BOGUS" "region" (some "bug") {} with
      | .ok _ => true
      | .error _ => false) = true := by
  have hbad : pyUpper "BOGUS" ∉ (["P1", "P2", "P3"] : List String) := by
    decide
  have hthm := C2_priority_validation "BOGUS" hbad
  refine ⟨hbad, hthm.1 [acctX] 10 {}, hthm.2.1 [acctX] 60 none ⟨2024, 1, 1⟩ 100 {},
    hthm.2.2.1 [acctX] 3 none 10 {}, ?_, ?_⟩
  · exact hthm.2.2.2.2 [acctX] {} "region" none (by decide)
      (by simp [optTruthy]) ⟨acctX, by simp, by decide⟩
  · have hok := hthm.2.2.2.1 [acctX] {} "region" "bug" (by decide)
      (by decide) (by decide)
    revert hok
    cases group_by [acctX] "BOGUS" "region" (some "bug") {} <;>
      simp [Except.isOk, Except.toBool]

/- ---------------------------------------------------------------------
   Claim C9
   --------------------------------------------------------------------- -/

theorem lookup_dictSet_self (d : Row) (k : String) (v : Value) :
    (dictSet d k v).lookup k = some v := by
  induction d with
  | nil => simp [dictSet, List.lookup]
  | cons p rest ih =>
      rcases p with ⟨k', v'⟩
      by_cases h : k' = k
      · simp [dictSet, h, List.lookup]
      · simp only [dictSet, h, if_false]
        simp only [List.lookup]
        have : (k == k') = false := by
          simp [Ne.symm h]
        simp [this, ih]

theorem lookup_dictSet_ne (d : Row) (k k' : String) (v : Value)
    (h : k' ≠ k) : (dictSet d k' v).lookup k = d.lookup k := by
  induction d with
  | nil =>
      simp [dictSet, List.lookup, show (k == k') = false by simp [Ne.symm h]]
  | cons p rest ih =>
      rcases p with ⟨k0, v0⟩
      by_cases h0 : k0 = k'
      · subst h0
        simp [dictSet, List.lookup,
          show (k == k0) = false by simp [Ne.symm h]]
      · simp only [dictSet, h0, if_false]
        by_cases hk : k0 = k
        · subst hk
          simp [List.lookup]
        · simp [List.lookup, show (k == k0) = false by simp [Ne.symm hk], ih]

/-- Folding the remaining sum fields never disturbs a key outside them. -/
theorem lookup_sumFold_notin (rows : List Row) (fields : List String)
    (kv : Row) (key : String)
    (h : key ∉ fields.map (fun g => "sum_" ++ g)) :
    (fields.foldl (fun acc g =>
        match sum_field rows g with
        | some n => dictSet acc ("sum_" ++ g) (vInt n)
        | none => acc) kv).lookup key = kv.lookup key := by
  induction fields generalizing kv with
  | nil => rfl
  | cons g rest ih =>
      have hne : "sum_" ++ g ≠ key := by
        intro hc
        exact h (by simp [← hc])
      have hrest : key ∉ rest.map (fun g => "sum_" ++ g) := by
        intro hc
        exact h (by simp [hc])
      simp only [List.foldl_cons]
      rcases hs : sum_field rows g with _ | n
      · simp [ih _ hrest]
      · rw [ih _ hrest, lookup_dictSet_ne _ _ _ _ hne]

/-- The `sum_<field>` entry of the context fold equals the (possibly
    failed) sum of that field. -/
theorem lookup_sumFold (rows : List Row) (fields : List String) (kv : Row)
    (f : String) (hf : f ∈ fields)
    (hnd : (fields.map (fun g => "sum_" ++ g)).Nodup)
    (h0 : kv.lookup ("sum_" ++ f) = none) :
    (fields.foldl (fun acc g =>
        match sum_field rows g with
        | some n => dictSet acc ("sum_" ++ g) (vInt n)
        | none => acc) kv).lookup ("sum_" ++ f) =
      (sum_field rows f).map vInt := by
  induction fields generalizing kv with
  | nil => simp at hf
  | cons g rest ih =>
      have hnd2 : ("sum_" ++ g) ∉ rest.map (fun x => "sum_" ++ x) ∧
          (rest.map (fun x => "sum_" ++ x)).Nodup := by
        rw [List.map_cons] at hnd
        exact List.nodup_cons.mp hnd
      rcases hnd2 with ⟨hg, hndr⟩
      rcases List.mem_cons.mp hf with hfg | hfr
      · subst hfg
        have hnotin : ("sum_" ++ f) ∉ rest.map (fun x => "sum_" ++ x) := hg
        simp only [List.foldl_cons]
        rcases hs : sum_field rows f with _ | n
        · rw [lookup_sumFold_notin rows rest _ _ hnotin]
          show List.lookup ("sum_" ++ f) kv = Option.map vInt none
          rw [h0]
          rfl
        · rw [lookup_sumFold_notin rows rest _ _ hnotin]
          show (dictSet kv ("sum_" ++ f) (vInt n)).lookup ("sum_" ++ f) =
            Option.map vInt (some n)
          rw [lookup_dictSet_self]
          rfl
      · have hne : "sum_" ++ g ≠ "sum_" ++ f := by
          intro hc
          exact hg (by rw [hc]; exact List.mem_map_of_mem _ hfr)
        simp only [List.foldl_cons]
        rcases hs : sum_field rows g with _ | n
        · exact ih kv hfr hndr h0
        · exact ih _ hfr hndr
            (by rw [lookup_dictSet_ne _ _ _ _ hne]; exact h0)

theorem sum_prefixed_ne_count (f : String) : ("sum_" ++ f) ≠ "count" := by
  intro hc
  have hd := congrArg String.data hc
  rw [String.data_append] at hd
  simp at hd

/-- C9 counterexample: the claim says a non-numeric value contributes 0
    to `sum_<field>`; in the code the `int()` call raises, the `except`
    drops the key entirely, and the placeholder stays unresolved. -/
theorem C9_counterexample :
    (answerContext [[("ARR", vStr "abc")]] none).lookup ("sum_" ++ "ARR") =
      none ∧
    render_answer (some "\x7b\x7bsum_ARR\x7d\x7d") [[("ARR", vStr "abc")]]
      none = "\x7b\x7bsum_ARR\x7d\x7d" := by
  decide

/-- C9 as amended: for each field of the fixed list, the substitution
    context binds `sum_<field>` to the sum exactly when every row's value
    at that field is falsy (contributing 0) or int()-coercible; if any
    row holds a truthy non-coercible value the generator raises inside
    the `try` and the key is omitted. -/
theorem C9_sum_context (rows : List Row) (field : String)
    (hf : field ∈ SUM_FIELDS) :
    ((answerContext rows none).lookup ("sum_" ++ field) =
      (sum_field rows field).map vInt) ∧
    ((∀ r ∈ rows, truthy (rowGet r field) = false ∨
        (pyIntCoerce (rowGet r field)).isSome = true) →
      sum_field rows field = some ((rows.map (fun r =>
        if truthy (rowGet r field) then (pyIntCoerce (rowGet r field)).getD 0
        else 0)).sum)) ∧
    ((∃ r ∈ rows, truthy (rowGet r field) = true ∧
        pyIntCoerce (rowGet r field) = none) →
      sum_field rows field = none) := by
  refine ⟨?_, ?_, ?_⟩
  · unfold answerContext
    apply lookup_sumFold rows SUM_FIELDS _ field hf (by decide)
    have hne : ("sum_" ++ field == "count") = false :=
      beq_eq_false_iff_ne.mpr (sum_prefixed_ne_count field)
    simp [List.lookup, hne]
  · intro hok
    induction rows with
    | nil => rfl
    | cons r rs ih =>
        rcases hok r (List.mem_cons_self r rs) with hr | hr
        · have := ih (fun x hx => hok x (List.mem_cons_of_mem r hx))
          simp [sum_field, hr, this, Bind.bind, Option.bind]
        · rcases Option.isSome_iff_exists.mp hr with ⟨n, hn⟩
          have := ih (fun x hx => hok x (List.mem_cons_of_mem r hx))
          by_cases ht : truthy (rowGet r field)
          · simp [sum_field, ht, hn, this, Bind.bind, Option.bind]
          · simp [sum_field, ht, this, Bind.bind, Option.bind]
  · intro hbad
    induction rows with
    | nil => simp at hbad
    | cons r rs ih =>
        rcases hbad with ⟨x, hx, hxt, hxc⟩
        rcases List.mem_cons.mp hx with hxa | hxr
        · subst hxa
          simp [sum_field, hxt, hxc, Bind.bind, Option.bind]
        · have htail := ih ⟨x, hxr, hxt, hxc⟩
          by_cases ht : truthy (rowGet r field)
          · rcases hcc : pyIntCoerce (rowGet r field) with _ | c
            · simp [sum_field, ht, hcc, Bind.bind, Option.bind]
            · simp [sum_field, ht, hcc, htail, Bind.bind, Option.bind]
          · simp [sum_field, ht, htail, Bind.bind, Option.bind]

/-- C9 witness: a numeric-string row and a null row sum to 12 under the
    amended rule. -/
theorem C9_sum_context_witness :
    ("ARR" ∈ SUM_FIELDS) ∧
    (answerContext [[("ARR", vStr "12")], [("ARR", vNull)]] none).lookup
        ("sum_" ++ "ARR") =
      (sum_field [[("ARR", vStr "12")], [("ARR", vNull)]] "ARR").map vInt :=
  ⟨by decide,
   (C9_sum_context [[("ARR", vStr "12")], [("ARR", vNull)]] "ARR"
     (by decide)).1⟩


/- ---------------------------------------------------------------------
   Claim C5
   --------------------------------------------------------------------- -/

theorem mem_truthyStrs (l : List (Option String)) (s : String) :
    s ∈ truthyStrs l ↔ some s ∈ l ∧ s ≠ "" := by
  unfold truthyStrs
  rw [List.mem_filterMap]
  constructor
  · rintro ⟨a, ha, hfa⟩
    match a with
    | none => simp at hfa
    | some t =>
        by_cases ht : t = "" <;> simp [ht] at hfa
        rcases hfa with ⟨rfl⟩
        exact ⟨ha, ht⟩
  · rintro ⟨hmem, hne⟩
    exact ⟨some s, hmem, by simp [hne]⟩

theorem strSortedDistinct_sorted (l : List String) :
    List.Sorted strLe (strSortedDistinct l) :=
  List.sorted_insertionSort _ _

theorem strSortedDistinct_nodup (l : List String) :
    (strSortedDistinct l).Nodup :=
  ((List.perm_insertionSort strLe l.dedup).nodup_iff).mpr (List.nodup_dedup l)

theorem mem_strSortedDistinct (l : List String) (s : String) :
    s ∈ strSortedDistinct l ↔ s ∈ l := by
  unfold strSortedDistinct
  rw [List.mem_insertionSort, List.mem_dedup]

theorem strSortedDistinct_canonical (l l' : List String)
    (h : ∀ s, s ∈ l ↔ s ∈ l') :
    strSortedDistinct l = strSortedDistinct l' := by
  apply List.eq_of_perm_of_sorted ?_ (strSortedDistinct_sorted l)
    (strSortedDistinct_sorted l')
  apply (List.perm_ext_iff_of_nodup (strSortedDistinct_nodup l)
    (strSortedDistinct_nodup l')).mpr
  intro a
  rw [mem_strSortedDistinct, mem_strSortedDistinct]
  exact h a

theorem assoc_value_unique {β : Type} (l : List (String × β))
    (hnd : (l.map (·.1)).Nodup) (k : String) (a b : β)
    (ha : (k, a) ∈ l) (hb : (k, b) ∈ l) : a = b := by
  induction l with
  | nil => simp at ha
  | cons p rest ih =>
      have hnd2 : (p.1 ∉ rest.map (fun x => x.1)) ∧
          (rest.map (fun x => x.1)).Nodup := by
        rw [List.map_cons] at hnd
        exact List.nodup_cons.mp hnd
      rcases hnd2 with ⟨hp, hrest⟩
      rcases List.mem_cons.mp ha with haa | har
      · rcases List.mem_cons.mp hb with hbb | hbr
        · rw [← haa] at hbb
          exact congrArg Prod.snd hbb.symm
        · exfalso
          apply hp
          rw [show p.1 = k from congrArg Prod.fst haa.symm]
          exact List.mem_map_of_mem _ hbr
      · rcases List.mem_cons.mp hb with hbb | hbr
        · exfalso
          apply hp
          rw [show p.1 = k from congrArg Prod.fst hbb.symm]
          exact List.mem_map_of_mem _ har
        · exact ih hrest har hbr

/-- The entry at index `i` of the epic map: the i-th sorted distinct
    epic, paired with the (i mod N)-th sorted distinct account. -/
theorem build_map_getElem (sf : List SFRecord) (ji : List NormalizedIssue)
    (i : Nat)
    (hi : i < (strSortedDistinct (truthyStrs (ji.map (fun x => x.EpicLink)))).length)
    (hA : strSortedDistinct (truthyStrs (sf.map (fun r => r.AccountID))) ≠ []) :
    (build_epic_to_account_map sf ji)[i]? =
      some ((strSortedDistinct (truthyStrs (ji.map (fun x => x.EpicLink)))).getD i "",
        (strSortedDistinct (truthyStrs (sf.map (fun r => r.AccountID)))).getD
          (i % (strSortedDistinct (truthyStrs (sf.map (fun r => r.AccountID)))).length)
          "") := by
  unfold build_epic_to_account_map
  have hE : strSortedDistinct (truthyStrs (ji.map (fun x => x.EpicLink))) ≠ [] := by
    intro hc
    rw [hc] at hi
    simp at hi
  rw [if_neg (by simp [List.isEmpty_iff_eq_nil, hA, hE])]
  have h1 : (strSortedDistinct (truthyStrs (ji.map (fun x => x.EpicLink))))[i]? =
      some ((strSortedDistinct (truthyStrs (ji.map (fun x => x.EpicLink)))).getD i "") := by
    rw [List.getElem?_eq_getElem hi, List.getD_eq_getElem?_getD,
      List.getElem?_eq_getElem hi]
    rfl
  rw [List.getElem?_map, List.getElem?_enum, h1]
  rfl

/-- The keys of the epic map are exactly the sorted distinct epics (when
    the map is built at all). -/
theorem build_map_keys (sf : List SFRecord) (ji : List NormalizedIssue)
    (hA : strSortedDistinct (truthyStrs (sf.map (fun r => r.AccountID))) ≠ [])
    (hE : strSortedDistinct (truthyStrs (ji.map (fun x => x.EpicLink))) ≠ []) :
    (build_epic_to_account_map sf ji).map (fun p => p.1) =
      strSortedDistinct (truthyStrs (ji.map (fun x => x.EpicLink))) := by
  unfold build_epic_to_account_map
  rw [if_neg (by simp [List.isEmpty_iff_eq_nil, hA, hE])]
  rw [List.map_map]
  exact List.enum_map_snd _

/-- C5: the epic-to-account map is built from the lexicographically
    sorted distinct truthy AccountIDs and EpicLinks; it is empty iff
    either set is; otherwise the i-th epic maps to the (i mod N)-th
    account; each epic is bound to exactly one account; and the map is
    identical for inputs with identical truthy-string sets
    (determinism). -/
theorem C5_epic_map (sf : List SFRecord) (ji : List NormalizedIssue) :
    ((∀ s, s ∈ strSortedDistinct (truthyStrs (sf.map (fun r => r.AccountID))) ↔
       (∃ r ∈ sf, r.AccountID = some s) ∧ s ≠ "") ∧
     List.Sorted strLe (strSortedDistinct (truthyStrs (sf.map (fun r => r.AccountID)))) ∧
     (strSortedDistinct (truthyStrs (sf.map (fun r => r.AccountID)))).Nodup) ∧
    ((∀ s, s ∈ strSortedDistinct (truthyStrs (ji.map (fun x => x.EpicLink))) ↔
       (∃ x ∈ ji, x.EpicLink = some s) ∧ s ≠ "") ∧
     List.Sorted strLe (strSortedDistinct (truthyStrs (ji.map (fun x => x.EpicLink)))) ∧
     (strSortedDistinct (truthyStrs (ji.map (fun x => x.EpicLink)))).Nodup) ∧
    (build_epic_to_account_map sf ji = [] ↔
      (strSortedDistinct (truthyStrs (sf.map (fun r => r.AccountID))) = [] ∨
       strSortedDistinct (truthyStrs (ji.map (fun x => x.EpicLink))) = [])) ∧
    (∀ i, i < (strSortedDistinct (truthyStrs (ji.map (fun x => x.EpicLink)))).length →
      strSortedDistinct (truthyStrs (sf.map (fun r => r.AccountID))) ≠ [] →
      (build_epic_to_account_map sf ji)[i]? =
        some ((strSortedDistinct (truthyStrs (ji.map (fun x => x.EpicLink)))).getD i "",
          (strSortedDistinct (truthyStrs (sf.map (fun r => r.AccountID)))).getD
            (i % (strSortedDistinct (truthyStrs (sf.map (fun r => r.AccountID)))).length)
            "")) ∧
    (strSortedDistinct (truthyStrs (sf.map (fun r => r.AccountID))) ≠ [] →
      ∀ e ∈ strSortedDistinct (truthyStrs (ji.map (fun x => x.EpicLink))),
        ∃! a, (e, a) ∈ build_epic_to_account_map sf ji) ∧
    (∀ (sf' : List SFRecord) (ji' : List NormalizedIssue),
      (∀ s, s ∈ truthyStrs (sf.map (fun r => r.AccountID)) ↔
        s ∈ truthyStrs (sf'.map (fun r => r.AccountID))) →
      (∀ s, s ∈ truthyStrs (ji.map (fun x => x.EpicLink)) ↔
        s ∈ truthyStrs (ji'.map (fun x => x.EpicLink))) →
      build_epic_to_account_map sf ji = build_epic_to_account_map sf' ji') := by
  refine ⟨⟨?_, strSortedDistinct_sorted _, strSortedDistinct_nodup _⟩,
    ⟨?_, strSortedDistinct_sorted _, strSortedDistinct_nodup _⟩, ?_, ?_, ?_, ?_⟩
  · intro s
    rw [mem_strSortedDistinct, mem_truthyStrs, List.mem_map]
  · intro s
    rw [mem_strSortedDistinct, mem_truthyStrs, List.mem_map]
  · constructor
    · intro hm
      by_cases hA : strSortedDistinct (truthyStrs (sf.map (fun r => r.AccountID))) = []
      · exact Or.inl hA
      · by_cases hE : strSortedDistinct (truthyStrs (ji.map (fun x => x.EpicLink))) = []
        · exact Or.inr hE
        · exfalso
          unfold build_epic_to_account_map at hm
          rw [if_neg (by simp [List.isEmpty_iff_eq_nil, hA, hE])] at hm
          have hlen := congrArg List.length hm
          simp [List.enum_length] at hlen
          exact hE hlen
    · intro h
      unfold build_epic_to_account_map
      rcases h with h | h <;> simp [h]
  · intro i hi hA
    exact build_map_getElem sf ji i hi hA
  · intro hA e he
    have hE : strSortedDistinct (truthyStrs (ji.map (fun x => x.EpicLink))) ≠ [] := by
      intro hc
      rw [hc] at he
      simp at he
    have hkeys := build_map_keys sf ji hA hE
    have hnd : ((build_epic_to_account_map sf ji).map (fun p => p.1)).Nodup := by
      rw [hkeys]
      exact strSortedDistinct_nodup _
    rcases List.mem_iff_getElem?.mp he with ⟨i, hgi⟩
    have hi : i < (strSortedDistinct (truthyStrs (ji.map (fun x => x.EpicLink)))).length := by
      by_contra hc
      rw [List.getElem?_eq_none (by omega)] at hgi
      exact Option.noConfusion hgi
    have hgd : (strSortedDistinct (truthyStrs (ji.map (fun x => x.EpicLink)))).getD i "" = e := by
      rw [List.getD_eq_getElem?_getD, hgi]
      rfl
    have hmapi := build_map_getElem sf ji i hi hA
    rw [hgd] at hmapi
    have hmem : (e, (strSortedDistinct (truthyStrs (sf.map (fun r => r.AccountID)))).getD
        (i % (strSortedDistinct (truthyStrs (sf.map (fun r => r.AccountID)))).length) "")
        ∈ build_epic_to_account_map sf ji :=
      List.getElem?_mem hmapi
    refine ⟨_, hmem, ?_⟩
    intro b hb
    exact assoc_value_unique _ hnd e b _ hb hmem
  · intro sf' ji' hAset hEset
    unfold build_epic_to_account_map
    rw [strSortedDistinct_canonical _ _ hAset, strSortedDistinct_canonical _ _ hEset]

/-- C5 witness: one account and one issue; the single epic E1 maps to the
    single account A1 at index 0. -/
theorem C5_epic_map_witness :
    (0 < (strSortedDistinct (truthyStrs ([jiX].map (fun x => x.EpicLink)))).length) ∧
    (strSortedDistinct (truthyStrs ([sfX].map (fun r => r.AccountID))) ≠ []) ∧
    (build_epic_to_account_map [sfX] [jiX])[0]? =
      some ((strSortedDistinct (truthyStrs ([jiX].map (fun x => x.EpicLink)))).getD 0 "",
        (strSortedDistinct (truthyStrs ([sfX].map (fun r => r.AccountID)))).getD
          (0 % (strSortedDistinct (truthyStrs ([sfX].map (fun r => r.AccountID)))).length)
          "") :=
  ⟨by decide, by decide,
   (C5_epic_map [sfX] [jiX]).2.2.2.1 0 (by decide) (by decide)⟩

/- ---------------------------------------------------------------------
   Claim C6
   --------------------------------------------------------------------- -/

/-- C6: with a valid priority, `top_revenue` returns at most `limit`
    items; every item is the projection of an input account whose open
    counter at the priority is positive and which passes the filters;
    the items are sorted by ARR descending; and ties keep the input
    order: each equal-ARR class of the items is a prefix of that class
    of the filtered input, projected. -/
theorem C6_top_revenue (accounts : List UnifiedAccount) (priority : String)
    (limit : Nat) (f : Filters) (okey : String) (resp : TopRevenueResponse)
    (hk : open_key_for priority = .ok okey)
    (hr : top_revenue accounts priority limit f = .ok resp) :
    resp.items.length ≤ limit ∧
    (∀ it ∈ resp.items, ∃ a, a ∈ accounts ∧
      0 < getOpenKey a okey ∧ passes_filters a f = true ∧
      it = topRevenueItemOf okey a) ∧
    resp.items.Pairwise (fun x y => y.ARR.getD 0 ≤ x.ARR.getD 0) ∧
    (∀ k : Int,
      resp.items.filter (fun it => it.ARR.getD 0 = k) <+:
        (((accounts.filter (fun a => 0 < getOpenKey a okey)).filter
            (fun a => passes_filters a f)).filter
            (fun a => a.ARR.getD 0 = k)).map (topRevenueItemOf okey)) := by
  have hitems : resp.items =
      ((sortByKeyDesc (fun a : UnifiedAccount => [a.ARR.getD 0])
          ((accounts.filter (fun a => 0 < getOpenKey a okey)).filter
            (fun a => passes_filters a f))).take limit).map
        (topRevenueItemOf okey) := by
    unfold top_revenue at hr
    rw [hk] at hr
    have h2 := Except.ok.inj hr
    rw [← h2]
  refine ⟨?_, ?_, ?_, ?_⟩
  · rw [hitems, List.length_map, List.length_take]
    exact min_le_left _ _
  · intro it hit
    rw [hitems] at hit
    rcases List.mem_map.mp hit with ⟨a, ha, rfl⟩
    have ha2 : a ∈ sortByKeyDesc (fun a : UnifiedAccount => [a.ARR.getD 0])
        ((accounts.filter (fun a => 0 < getOpenKey a okey)).filter
          (fun a => passes_filters a f)) := List.mem_of_mem_take ha
    have ha3 := (sortByKeyDesc_perm _ _).mem_iff.mp ha2
    rcases List.mem_filter.mp ha3 with ⟨ha4, hpf⟩
    rcases List.mem_filter.mp ha4 with ⟨hacc, hopen⟩
    exact ⟨a, hacc, by simpa using hopen, hpf, rfl⟩
  · rw [hitems]
    have hs := sortByKeyDesc_sorted (fun a : UnifiedAccount => [a.ARR.getD 0])
      ((accounts.filter (fun a => 0 < getOpenKey a okey)).filter
        (fun a => passes_filters a f))
    have ht := List.Pairwise.sublist (List.take_sublist limit _) hs
    apply List.pairwise_map.mpr
    exact ht.imp (fun hab => (intListLe_singleton _ _).mp hab)
  · intro k
    rw [hitems, List.filter_map]
    apply List.IsPrefix.map
    have hc1 : ((sortByKeyDesc (fun a : UnifiedAccount => [a.ARR.getD 0])
        ((accounts.filter (fun a => 0 < getOpenKey a okey)).filter
          (fun a => passes_filters a f))).take limit).filter
        ((fun it : TopRevenueItem => decide (it.ARR.getD 0 = k)) ∘
          topRevenueItemOf okey) =
        ((sortByKeyDesc (fun a : UnifiedAccount => [a.ARR.getD 0])
        ((accounts.filter (fun a => 0 < getOpenKey a okey)).filter
          (fun a => passes_filters a f))).take limit).filter
          (fun a => decide (a.ARR.getD 0 = k)) :=
      List.filter_congr (fun x _ => rfl)
    rw [hc1]
    have hpre := List.take_prefix limit (sortByKeyDesc
      (fun a : UnifiedAccount => [a.ARR.getD 0])
      ((accounts.filter (fun a => 0 < getOpenKey a okey)).filter
        (fun a => passes_filters a f)))
    have hpf := hpre.filter (fun a => decide (a.ARR.getD 0 = k))
    have hclass := sortByKeyDesc_filter_class
      (fun a : UnifiedAccount => [a.ARR.getD 0])
      ((accounts.filter (fun a => 0 < getOpenKey a okey)).filter
        (fun a => passes_filters a f)) [k]
    have e1 : ∀ l : List UnifiedAccount,
        l.filter (fun a => decide ((fun a : UnifiedAccount => [a.ARR.getD 0]) a = [k])) =
        l.filter (fun a => decide (a.ARR.getD 0 = k)) :=
      fun l => List.filter_congr (fun x _ => by simp)
    rw [e1, e1] at hclass
    rw [hclass] at hpf
    exact hpf

/-- C6 witness: three accounts, limit 2 — at most two items; the ARR-200
    account leads and the tied ARR-100 pair keeps input order. -/
theorem C6_top_revenue_witness :
    open_key_for "P1" = .ok "OpenP1Issues" ∧
    top_revenue [acctY, acctX, acctZ] "P1" 2 {} =
      .ok ⟨"P1", 2, [⟨"A2", "Beta", some 200, none, none, none, 1⟩,
        ⟨"A1", "Acme", some 100, some "2024-02-15", some "APAC",
         some "Closed Won", 2⟩]⟩ ∧
    (⟨"P1", 2, [⟨"A2", "Beta", some 200, none, none, none, 1⟩,
        ⟨"A1", "Acme", some 100, some "2024-02-15", some "APAC",
         some "Closed Won", 2⟩]⟩ : TopRevenueResponse).items.length ≤ 2 :=
  ⟨by decide, by decide,
   (C6_top_revenue [acctY, acctX, acctZ] "P1" 2 {} "OpenP1Issues"
     ⟨"P1", 2, [⟨"A2", "Beta", some 200, none, none, none, 1⟩,
        ⟨"A1", "Acme", some 100, some "2024-02-15", some "APAC",
         some "Closed Won", 2⟩]⟩ (by decide) (by decide)).1⟩

/- ---------------------------------------------------------------------
   Claim C7
   --------------------------------------------------------------------- -/

theorem apply_filter_eq_single (rows : List Row) (field : String) (v : Value) :
    apply_filter rows [⟨field, "=", v⟩] =
      .ok (rows.filter (fun r => vEq (rowGet r field) v)) := by
  induction rows with
  | nil => rfl
  | cons r rs ih =>
      rw [List.filter_cons]
      by_cases h : vEq (rowGet r field) v
      · simp only [apply_filter, rowOk, condOk, ih, h, if_true]
        rfl
      · simp only [apply_filter, rowOk, condOk, ih, h]
        simp only [h, Bool.false_eq_true, if_false]
        rfl

theorem agent_query_account_tier (api : FetchApi) (gk : Bool)
    (llm : Option Plan) (qRaw tok : String)
    (hq : pyStrip qRaw ≠ "")
    (hg : groupbySearch (pyStrip qRaw) = none)
    (ha : accountIdFind (pyStrip qRaw) = some tok) :
    agent_query api gk llm qRaw none =
      respondWithPlan api (pyStrip qRaw) []
        ⟨"answer",
         [fetchStep "/mcp/accounts" (default_params_for "/mcp/accounts"),
          filterStep [⟨"AccountID", "=", vStr (pyUpper tok)⟩],
          topStep 1], none⟩ none none := by
  simp [agent_query, hq, hg, ha]

theorem execute_account_plan (api : FetchApi) (acc : String)
    (rows0 : List Row) (fetches0 : List (String × Row))
    (h : execute_plan api
      ⟨"answer",
       [fetchStep "/mcp/accounts" (default_params_for "/mcp/accounts"),
        filterStep [⟨"AccountID", "=", vStr acc⟩],
        topStep 1], none⟩ = .ok (rows0, fetches0)) :
    ∃ data, api "/mcp/accounts"
        (dictMerge (default_params_for "/mcp/accounts")
          (default_params_for "/mcp/accounts")) = .ok data ∧
      rows0 = ((extract_rows data).filter
        (fun r => vEq (rowGet r "AccountID") (vStr acc))).take 1 := by
  rcases happ : api "/mcp/accounts"
      (dictMerge (default_params_for "/mcp/accounts")
        (default_params_for "/mcp/accounts")) with e | data
  · exfalso
    unfold execute_plan at h
    rw [List.foldlM] at h
    simp only [fetchStep, happ] at h
    exact absurd h (by simp [Bind.bind, Except.bind])
  · have hcomp : execute_plan api
        (⟨"answer",
         [fetchStep "/mcp/accounts" (default_params_for "/mcp/accounts"),
          filterStep [⟨"AccountID", "=", vStr acc⟩],
          topStep 1], none⟩ : Plan) =
        .ok (((extract_rows data).filter
            (fun r => vEq (rowGet r "AccountID") (vStr acc))).take 1,
          [("/mcp/accounts",
            dictMerge (default_params_for "/mcp/accounts")
              (default_params_for "/mcp/accounts"))]) := by
      unfold execute_plan
      simp only [List.foldlM, fetchStep, filterStep, topStep, happ,
        apply_filter_eq_single, Bind.bind, Except.bind]
      rfl
    rw [hcomp] at h
    have h2 := Except.ok.inj h
    injection h2 with hA hB
    exact ⟨data, rfl, hA.symm⟩

/-- C7 (amended): when the stripped query contains a code-shape account
    token (the letter `A` then at least three digits, word-bounded) and
    no group-by phrase, `agent_query` answers through the account
    guardrail: the response plan fetches the raw unified list, filters
    AccountID equal to the upper-cased token and truncates to 1, and
    the returned rows number at most one, each carrying that AccountID.
    (The spec says "a letter"; `C7_counterexample` shows only `A`
    triggers.) -/
theorem C7_account_guardrail (api : FetchApi) (gk : Bool) (llm : Option Plan)
    (qRaw tok : String) (resp : AgentResponse)
    (hq : pyStrip qRaw ≠ "")
    (hg : groupbySearch (pyStrip qRaw) = none)
    (ha : accountIdFind (pyStrip qRaw) = some tok)
    (hr : agent_query api gk llm qRaw none = .ok resp) :
    resp.plan = some
      ⟨"answer",
       [fetchStep "/mcp/accounts" (default_params_for "/mcp/accounts"),
        filterStep [⟨"AccountID", "=", vStr (pyUpper tok)⟩],
        topStep 1], none⟩ ∧
    (∀ rows, resp.result = .rows rows →
      rows.length ≤ 1 ∧
      ∀ r ∈ rows, vEq (rowGet r "AccountID") (vStr (pyUpper tok)) = true) := by
  rw [agent_query_account_tier api gk llm qRaw tok hq hg ha] at hr
  unfold respondWithPlan at hr
  rcases hexec : execute_plan api
      ⟨"answer",
       [fetchStep "/mcp/accounts" (default_params_for "/mcp/accounts"),
        filterStep [⟨"AccountID", "=", vStr (pyUpper tok)⟩],
        topStep 1], none⟩ with e | pr
  · rw [hexec] at hr
    rcases e with e' | m <;>
      exact absurd hr (by simp [liftExec, Bind.bind, Except.bind])
  · obtain ⟨rows0, fetches0⟩ := pr
    rw [hexec] at hr
    simp only [liftExec, Bind.bind, Except.bind] at hr
    have h2 := Except.ok.inj hr
    rw [← h2]
    refine ⟨rfl, ?_⟩
    intro rows hrows
    injection hrows with hrw
    subst hrw
    rcases execute_account_plan api (pyUpper tok) rows0 fetches0 hexec with
      ⟨data, _, hrows0⟩
    subst hrows0
    refine ⟨?_, ?_⟩
    · rw [List.length_take]
      exact min_le_left _ _
    · intro r hrmem
      exact (List.mem_filter.mp (List.mem_of_mem_take hrmem)).2

/-- C7 counterexample: "account B1001" carries a spec-shape token (letter
    then at least three digits) but the code regex only accepts the
    letter `A`, so the guardrail does not fire and the fallback path
    returns two rows — more than the claimed at-most-one item. -/
theorem C7_counterexample :
    spec_account_token "account B1001" = true ∧
    accountIdFind (pyStrip "account B1001") = none ∧
    ((agent_query apiW false none "account B1001" none).map
      (fun r => match r.result with
        | .rows rs => rs.length
        | .csv _ => 0)) = .ok 2 := by
  decide

/-- C7 witness: "account A1001" fires the guardrail against the two-row
    stub; the response keeps exactly the `A1001` row. -/
theorem C7_account_guardrail_witness :
    (pyStrip "account A1001" ≠ "") ∧
    groupbySearch (pyStrip "account A1001") = none ∧
    accountIdFind (pyStrip "account A1001") = some "A1001" ∧
    agent_query apiW false none "account A1001" none = .ok
      ⟨"account A1001", "answer", [],
       some ⟨"answer",
         [fetchStep "/mcp/accounts" (default_params_for "/mcp/accounts"),
          filterStep [⟨"AccountID", "=", vStr (pyUpper "A1001")⟩],
          topStep 1], none⟩,
       none, some "Found 1 result(s). Showing 1 sample row(s).",
       .rows [[("AccountID", vStr "A1001"), ("ARR", vInt 5)]],
       [("/mcp/accounts", [("limit", vInt 100), ("offset", vInt 0)])]⟩ ∧
    (∀ rows,
      AgentResult.rows [[("AccountID", vStr "A1001"), ("ARR", vInt 5)]] =
        .rows rows →
      rows.length ≤ 1 ∧
      ∀ r ∈ rows, vEq (rowGet r "AccountID") (vStr (pyUpper "A1001")) = true) :=
  ⟨by decide, by decide, by decide, by decide,
   (C7_account_guardrail apiW false none "account A1001" "A1001"
     ⟨"account A1001", "answer", [],
      some ⟨"answer",
        [fetchStep "/mcp/accounts" (default_params_for "/mcp/accounts"),
         filterStep [⟨"AccountID", "=", vStr (pyUpper "A1001")⟩],
         topStep 1], none⟩,
      none, some "Found 1 result(s). Showing 1 sample row(s).",
      .rows [[("AccountID", vStr "A1001"), ("ARR", vInt 5)]],
      [("/mcp/accounts", [("limit", vInt 100), ("offset", vInt 0)])]⟩
     (by decide) (by decide) (by decide) (by decide)).2⟩

/- ---------------------------------------------------------------------
   Claim C8
   --------------------------------------------------------------------- -/

/-- C8: a non-empty query mentioning an out-of-scope word, matching no
    hard guardrail, with no LLM key configured, produces the empty
    fallback plan and a success response: warnings note that no plan
    could be generated, the answer is the polite "I don\x27t know" text and
    the result list is empty. -/
theorem C8_out_of_scope (api : FetchApi) (llm : Option Plan) (qRaw : String)
    (hq : pyStrip qRaw ≠ "")
    (hg : groupbySearch (pyStrip qRaw) = none)
    (ha : accountIdFind (pyStrip qRaw) = none)
    (hs : showAllSearch (pyStrip qRaw) = false)
    (ho : outOfScopeSearch (pyLower (pyStrip qRaw)) = true) :
    (fallback_plan (pyStrip qRaw)).steps = [] ∧
    agent_query api false llm qRaw none =
      .ok ⟨pyStrip qRaw, "answer", ["No valid plan could be generated."],
           none, none, some "Sorry, I don\x27t know how to answer that yet.",
           .rows [], []⟩ := by
  have hfb : fallback_plan (pyStrip qRaw) = ⟨"answer", [], none⟩ := by
    unfold fallback_plan
    simp [ho]
  refine ⟨by rw [hfb], ?_⟩
  simp [agent_query, hq, hg, ha, hs, hfb]

/-- C8 witness: the query "tell me about churn" yields the empty plan
    and the polite success answer. -/
theorem C8_out_of_scope_witness :
    (fallback_plan (pyStrip "tell me about churn")).steps = [] ∧
    agent_query apiW false none "tell me about churn" none =
      .ok ⟨pyStrip "tell me about churn", "answer",
           ["No valid plan could be generated."],
           none, none, some "Sorry, I don\x27t know how to answer that yet.",
           .rows [], []⟩ :=
  C8_out_of_scope apiW none "tell me about churn"
    (by decide) (by decide) (by decide) (by decide) (by decide)
